import Mathlib

/-!
Verification development for the multi-provider streaming chat protocol adapter
(`packages/api/app/main.py` and `packages/api/app/ui_trees.py`).

The Python source is shallowly embedded below:
* raw text is modelled as `List Char` (Python `str`);
* JSON values (`json.loads` / `json.dumps`) are modelled by the inductive `Json`,
  with floats represented as exact decimal mantissa/exponent pairs
  (the concrete literals of the repository are all exactly representable;
  claims in this development never depend on binary-float rounding);
* the two streaming request handlers (`chat_via_proxy`, `chat_via_anthropic`)
  are modelled as pure functions from a simulated provider event sequence to
  the list of emitted stream events, with the nondeterministically generated
  uuids (`message_id`, tool call ids) taken as parameters;
* a Python exception escaping the generator body is modelled explicitly where
  it can occur: provider-stream failure is an input of the driver models, and
  `execute_tool`'s few genuinely raising paths make the embedded
  `executeTool` return `none`.
-/

namespace AIChat

/-! ## Python string primitives -/

/-- Python whitespace for `str.strip()` (ASCII part; the repository never
feeds non-ASCII whitespace through the stripped paths). -/
def isPySpace (c : Char) : Bool :=
  c = ' ' || c = '\t' || c = '\n' || c = '\r' || c = '\x0b' || c = '\x0c'

/-- `s.strip()` : drop leading and trailing whitespace. -/
def pyStrip (s : List Char) : List Char :=
  ((s.dropWhile isPySpace).reverse.dropWhile isPySpace).reverse

/-- `haystack.startswith(needle)` on character lists. -/
def startsWithL : List Char → List Char → Bool
  | _, [] => true
  | [], _ :: _ => false
  | a :: as, b :: bs => a = b && startsWithL as bs

/-- Python `needle in haystack` (substring containment). -/
def containsSub : List Char → List Char → Bool
  | [], pat => pat.isEmpty
  | l@(_ :: rest), pat => startsWithL l pat || containsSub rest pat

/-- `haystack.find(needle)`: index of first occurrence; Python's `-1` sentinel
is modelled as `none` (the source only compares the result against `-1`). -/
def pyFindSub : List Char → List Char → Option Nat
  | [], pat => if pat.isEmpty then some 0 else none
  | l@(_ :: rest), pat =>
    if startsWithL l pat then some 0
    else match pyFindSub rest pat with
      | some i => some (i + 1)
      | none => none

/-- `s.split('\n')` (always at least one piece). -/
def pySplitNL : List Char → List (List Char)
  | [] => [[]]
  | c :: rest =>
    let r := pySplitNL rest
    if c = '\n' then [] :: r
    else match r with
      | piece :: pieces => (c :: piece) :: pieces
      | [] => [[c]]

/-- `'\n'.join(pieces)`. -/
def pyJoinNL : List (List Char) → List Char
  | [] => []
  | [p] => p
  | p :: ps => p ++ '\n' :: pyJoinNL ps

/-- Python `str.title()` (ASCII behaviour: uppercase a letter that follows a
non-letter, lowercase a letter that follows a letter). -/
def pyTitleAux : List Char → Bool → List Char
  | [], _ => []
  | c :: rest, prevAlpha =>
    (if c.isAlpha then (if prevAlpha then c.toLower else c.toUpper) else c) ::
      pyTitleAux rest c.isAlpha

def pyTitle (s : String) : String := (pyTitleAux s.toList false).asString

/-! ## JSON values

Model of the Python objects that `json.loads` produces and `json.dumps`
consumes in this code base: `dict` (insertion-ordered, string keys), `list`,
`str`, `bool`, `None`, `int`, and `float` (as exact decimal
`mant * 10 ^ exp10`; the source only ever handles short decimal literals,
which are used verbatim).  `nanVal`/`infVal` cover the non-standard
`NaN`/`Infinity`/`-Infinity` constants Python's parser accepts. -/

inductive Json where
  | null
  | bool (b : Bool)
  | intNum (n : Int)
  | floatNum (mant : Int) (exp10 : Int)
  | nanVal
  | infVal (neg : Bool)
  | str (s : String)
  | arr (elems : List Json)
  | obj (fields : List (String × Json))

mutual

/-- Structural (boolean) equality on `Json`. -/
def Json.beq : Json → Json → Bool
  | .null, .null => true
  | .bool a, .bool b => a = b
  | .intNum a, .intNum b => a = b
  | .floatNum m e, .floatNum m' e' => m = m' && e = e'
  | .nanVal, .nanVal => true
  | .infVal a, .infVal b => a = b
  | .str a, .str b => a = b
  | .arr xs, .arr ys => Json.beqList xs ys
  | .obj xs, .obj ys => Json.beqFields xs ys
  | _, _ => false

def Json.beqList : List Json → List Json → Bool
  | [], [] => true
  | x :: xs, y :: ys => Json.beq x y && Json.beqList xs ys
  | _, _ => false

def Json.beqFields : List (String × Json) → List (String × Json) → Bool
  | [], [] => true
  | (k, v) :: xs, (k', v') :: ys => k = k' && Json.beq v v' && Json.beqFields xs ys
  | _, _ => false

end

/-- Python dict key lookup on an insertion-ordered field list (the parser
keeps keys unique, see `dictInsert`). -/
def objLookup (fields : List (String × Json)) (k : String) : Option Json :=
  match fields with
  | [] => none
  | (k', v) :: rest => if k' = k then some v else objLookup rest k

/-- `d.get(k, default)`. -/
def objGetD (fields : List (String × Json)) (k : String) (default : Json) : Json :=
  match objLookup fields k with
  | some v => v
  | none => default

/-- Python dict insertion: overwriting an existing key keeps its original
position, a new key is appended at the end. -/
def dictInsert (fields : List (String × Json)) (k : String) (v : Json) :
    List (String × Json) :=
  if fields.any (fun kv => kv.1 = k) then
    fields.map (fun kv => if kv.1 = k then (kv.1, v) else kv)
  else fields ++ [(k, v)]

/-- Python truthiness of the values above (`if x:`). -/
def pyTruthy : Json → Bool
  | .null => false
  | .bool b => b
  | .intNum n => n ≠ 0
  | .floatNum m _ => m ≠ 0
  | .nanVal => true
  | .infVal _ => true
  | .str s => s ≠ ""
  | .arr xs => !xs.isEmpty
  | .obj fs => !fs.isEmpty

/-! ## `json.loads`

A recursive-descent parser matching Python's `json.loads` strict mode:
JSON whitespace is space/tab/newline/carriage-return, numbers reject leading
zeros and bare signs, strings require the standard escapes and reject raw
control characters, objects keep insertion order with last-duplicate-wins,
and a trailing remainder after the top-level value is an error.
(`\uXXXX` escapes for lone surrogates and astral pairs are idealized to
`Char.ofNat`; no input exercised by any claim contains them.) -/

def isJsonWs (c : Char) : Bool := c = ' ' || c = '\t' || c = '\n' || c = '\r'

def skipWs (s : List Char) : List Char := s.dropWhile isJsonWs

def hexVal (c : Char) : Option Nat :=
  if '0' ≤ c ∧ c ≤ '9' then some (c.toNat - '0'.toNat)
  else if 'a' ≤ c ∧ c ≤ 'f' then some (c.toNat - 'a'.toNat + 10)
  else if 'A' ≤ c ∧ c ≤ 'F' then some (c.toNat - 'A'.toNat + 10)
  else none

/-- Parse the body of a JSON string (the opening quote already consumed). -/
def parseJStr : List Char → Option (List Char × List Char)
  | [] => none
  | '"' :: rest => some ([], rest)
  | '\\' :: esc =>
    match esc with
    | '"' :: rest => (parseJStr rest).map (fun r => ('"' :: r.1, r.2))
    | '\\' :: rest => (parseJStr rest).map (fun r => ('\\' :: r.1, r.2))
    | '/' :: rest => (parseJStr rest).map (fun r => ('/' :: r.1, r.2))
    | 'b' :: rest => (parseJStr rest).map (fun r => ('\x08' :: r.1, r.2))
    | 'f' :: rest => (parseJStr rest).map (fun r => ('\x0c' :: r.1, r.2))
    | 'n' :: rest => (parseJStr rest).map (fun r => ('\n' :: r.1, r.2))
    | 'r' :: rest => (parseJStr rest).map (fun r => ('\r' :: r.1, r.2))
    | 't' :: rest => (parseJStr rest).map (fun r => ('\t' :: r.1, r.2))
    | 'u' :: h1 :: h2 :: h3 :: h4 :: rest =>
      match hexVal h1, hexVal h2, hexVal h3, hexVal h4 with
      | some a, some b, some c, some d =>
        (parseJStr rest).map (fun r =>
          (Char.ofNat (((a * 16 + b) * 16 + c) * 16 + d) :: r.1, r.2))
      | _, _, _, _ => none
    | _ => none
  | c :: rest =>
    if c.toNat < 0x20 then none
    else (parseJStr rest).map (fun r => (c :: r.1, r.2))

/-- Digits `0-9`, greedy. -/
def takeDigits (s : List Char) : List Char × List Char :=
  (s.takeWhile Char.isDigit, s.dropWhile Char.isDigit)

def digitsToNat (ds : List Char) : Nat :=
  ds.foldl (fun acc c => acc * 10 + (c.toNat - '0'.toNat)) 0

/-- Parse a JSON number starting at the current position (after an optional
leading `-` flagged by `neg`).  Returns the value and remainder. -/
def parseNumBody (neg : Bool) (s : List Char) : Option (Json × List Char) :=
  -- integer part: "0" or nonzero digit followed by digits
  let intPart : Option (List Char × List Char) :=
    match s with
    | '0' :: rest => some (['0'], rest)
    | c :: _ =>
      if c.isDigit then
        let (ds, rest) := takeDigits s
        some (ds, rest)
      else none
    | [] => none
  match intPart with
  | none => none
  | some (ids, rest1) =>
    -- fractional part
    let fracPart : Option (List Char × List Char) :=
      match rest1 with
      | '.' :: rest2 =>
        let (fds, rest3) := takeDigits rest2
        if fds.isEmpty then none else some (fds, rest3)
      | _ => some ([], rest1)
    match fracPart with
    | none => none
    | some (fds, rest3) =>
      -- exponent part
      let expPart : Option (Option Int × List Char) :=
        match rest3 with
        | 'e' :: rest4 | 'E' :: rest4 =>
          let (esign, rest5) :=
            match rest4 with
            | '+' :: r => ((1 : Int), r)
            | '-' :: r => ((-1 : Int), r)
            | r => ((1 : Int), r)
          let (eds, rest6) := takeDigits rest5
          if eds.isEmpty then none
          else some (some (esign * (digitsToNat eds : Int)), rest6)
        | _ => some (none, rest3)
      match expPart with
      | none => none
      | some (expv, rest6) =>
        let mantNat : Nat := digitsToNat (ids ++ fds)
        let mant : Int := if neg then -(mantNat : Int) else (mantNat : Int)
        if fds.isEmpty ∧ expv.isNone then
          some (Json.intNum mant, rest6)
        else
          let e : Int := (match expv with | some e => e | none => 0) - (fds.length : Int)
          some (Json.floatNum mant e, rest6)

mutual

/-- One JSON value at the head of the input (leading whitespace already
skipped); `fuel` strictly bounds recursion depth. -/
def parseValue : Nat → List Char → Option (Json × List Char)
  | 0, _ => none
  | _ + 1, [] => none
  | fuel + 1, s@(c :: rest) =>
    if startsWithL s "null".toList then some (Json.null, s.drop 4)
    else if startsWithL s "true".toList then some (Json.bool true, s.drop 4)
    else if startsWithL s "false".toList then some (Json.bool false, s.drop 5)
    else if startsWithL s "NaN".toList then some (Json.nanVal, s.drop 3)
    else if startsWithL s "Infinity".toList then some (Json.infVal false, s.drop 8)
    else if startsWithL s "-Infinity".toList then some (Json.infVal true, s.drop 9)
    else if c = '"' then
      (parseJStr rest).map (fun r => (Json.str r.1.asString, r.2))
    else if c = '-' then parseNumBody true rest
    else if c.isDigit then parseNumBody false s
    else if c = '[' then
      match skipWs rest with
      | ']' :: rest2 => some (Json.arr [], rest2)
      | s2 => (parseElems fuel s2).map (fun r => (Json.arr r.1, r.2))
    else if c = '{' then
      match skipWs rest with
      | '}' :: rest2 => some (Json.obj [], rest2)
      | s2 => (parseMembers fuel [] s2).map (fun r => (Json.obj r.1, r.2))
    else none

/-- Comma-separated array elements up to the closing `]`. -/
def parseElems : Nat → List Char → Option (List Json × List Char)
  | 0, _ => none
  | fuel + 1, s =>
    match parseValue fuel (skipWs s) with
    | none => none
    | some (v, rest) =>
      match skipWs rest with
      | ',' :: rest2 => (parseElems fuel rest2).map (fun r => (v :: r.1, r.2))
      | ']' :: rest2 => some ([v], rest2)
      | _ => none

/-- Comma-separated `"key": value` members up to the closing `}`;
`acc` carries the dict built so far (duplicate keys overwrite in place). -/
def parseMembers : Nat → List (String × Json) → List Char →
    Option (List (String × Json) × List Char)
  | 0, _, _ => none
  | fuel + 1, acc, s =>
    match skipWs s with
    | '"' :: rest =>
      match parseJStr rest with
      | none => none
      | some (key, rest2) =>
        match skipWs rest2 with
        | ':' :: rest3 =>
          match parseValue fuel (skipWs rest3) with
          | none => none
          | some (v, rest4) =>
            let acc2 := dictInsert acc key.asString v
            match skipWs rest4 with
            | ',' :: rest5 => parseMembers fuel acc2 rest5
            | '}' :: rest5 => some (acc2, rest5)
            | _ => none
        | _ => none
    | _ => none

end

/-- `json.loads(s)`: `none` models `json.JSONDecodeError`. -/
def pyLoads (s : List Char) : Option Json :=
  match parseValue (s.length + 1) (skipWs s) with
  | none => none
  | some (v, rest) => if (skipWs rest).isEmpty then some v else none

/-! ## `json.dumps`

`dumpsC` models `json.dumps(x, separators=(',', ':'))` (used by `format_sse`);
`dumpsPy` models default-separator `json.dumps(x)` (used for the proxy
driver's `tool-input-delta` payload).  `ensure_ascii` escaping is modelled for
the Basic Multilingual Plane; every string the repository serializes is ASCII. -/

def hexDigit (n : Nat) : Char :=
  if n < 10 then Char.ofNat ('0'.toNat + n) else Char.ofNat ('a'.toNat + (n - 10))

def escapeChar (c : Char) : List Char :=
  if c = '"' then ['\\', '"']
  else if c = '\\' then ['\\', '\\']
  else if c = '\n' then ['\\', 'n']
  else if c = '\t' then ['\\', 't']
  else if c = '\r' then ['\\', 'r']
  else if c = '\x08' then ['\\', 'b']
  else if c = '\x0c' then ['\\', 'f']
  else if c.toNat < 0x20 ∨ 0x7f ≤ c.toNat then
    let n := c.toNat
    ['\\', 'u', hexDigit (n / 4096 % 16), hexDigit (n / 256 % 16),
     hexDigit (n / 16 % 16), hexDigit (n % 16)]
  else [c]

def quoteJStr (s : String) : String :=
  ('"' :: (s.toList.foldr (fun c acc => escapeChar c ++ acc) ['"'])).asString

/-- Decimal rendering of a float value `mant * 10 ^ exp10` the way Python's
`repr` renders the repository's short literals: a dot with at least one
fractional digit, trailing zeros trimmed, no exponent notation (every float
literal in the source is in the plain-notation range). -/
def floatRepr (mant : Int) (exp10 : Int) : String :=
  let sign := if mant < 0 then "-" else ""
  let m := mant.natAbs
  match exp10 with
  | .ofNat k =>
    -- integral value m * 10^k, rendered with a trailing ".0"
    sign ++ toString (m * 10 ^ k) ++ ".0"
  | .negSucc k' =>
    let k := k' + 1
    let ip := m / 10 ^ k
    let fp := m % 10 ^ k
    let fracDigits := (Nat.toDigits 10 fp).map id
    let padded := List.replicate (k - fracDigits.length) '0' ++ fracDigits
    let trimmed := (padded.reverse.dropWhile (· = '0')).reverse
    let frac := if trimmed.isEmpty then ['0'] else trimmed
    sign ++ toString ip ++ "." ++ frac.asString

mutual

def dumpsVal (itemSep kvSep : String) : Json → String
  | .null => "null"
  | .bool true => "true"
  | .bool false => "false"
  | .intNum n => toString n
  | .floatNum m e => floatRepr m e
  | .nanVal => "NaN"
  | .infVal false => "Infinity"
  | .infVal true => "-Infinity"
  | .str s => quoteJStr s
  | .arr xs => "[" ++ dumpsList itemSep kvSep xs ++ "]"
  | .obj fs => "\x7b" ++ dumpsFields itemSep kvSep fs ++ "\x7d"

def dumpsList (itemSep kvSep : String) : List Json → String
  | [] => ""
  | [x] => dumpsVal itemSep kvSep x
  | x :: xs => dumpsVal itemSep kvSep x ++ itemSep ++ dumpsList itemSep kvSep xs

def dumpsFields (itemSep kvSep : String) : List (String × Json) → String
  | [] => ""
  | [(k, v)] => quoteJStr k ++ kvSep ++ dumpsVal itemSep kvSep v
  | (k, v) :: fs =>
    quoteJStr k ++ kvSep ++ dumpsVal itemSep kvSep v ++ itemSep ++
      dumpsFields itemSep kvSep fs

end

/-- `json.dumps(x, separators=(',', ':'))`. -/
def dumpsC (j : Json) : String := dumpsVal "," ":" j

/-- `json.dumps(x)` with the default separators `(', ', ': ')`. -/
def dumpsPy (j : Json) : String := dumpsVal ", " ": " j

/-! ## Tool Catalog names and the Tool-Call Extractor (`parse_tool_call`) -/

/-- The `name` fields of the `TOOLS` list in `main.py`, in source order
(`valid_tools = {t["name"] for t in TOOLS}`). -/
def toolNames : List String :=
  ["get_analytics_dashboard", "show_data_table", "show_chart",
   "show_status", "show_filter_panel", "generate_document"]

/-- The call-opening marker `'{"tool_call"'` (zero interior spaces). -/
def callMarker1 : List Char := "\x7b\"tool_call\"".toList

/-- The call-opening marker `'{ "tool_call"'` (one interior space). -/
def callMarker2 : List Char := "\x7b \"tool_call\"".toList

/-- The `'"tool_call"'` substring the proxy driver's buffering loop probes for
(note: without the opening brace). -/
def bufferMarker : List Char := "\"tool_call\"".toList

/-- The brace-depth scan of `parse_tool_call`: `i` is the current index and
`cnt` the running depth; returns `json_end` when the depth first returns to
zero after a closing brace, `none` when the loop runs out (`json_end == 0`). -/
def braceScan : List Char → Nat → Int → Option Nat
  | [], _, _ => none
  | c :: rest, i, cnt =>
    if c = '{' then braceScan rest (i + 1) (cnt + 1)
    else if c = '}' then
      let cnt' := cnt - 1
      if cnt' = 0 then some (i + 1) else braceScan rest (i + 1) cnt'
    else braceScan rest (i + 1) cnt

/-- `cleaned = cleaned[:json_end] if json_end > 0 else cleaned`. -/
def truncateToBalanced (s : List Char) : List Char :=
  match braceScan s 0 0 with
  | some n => s.take n
  | none => s

/-- Markdown fence stripping: drop the first line and, when the last line
strips to a bare fence, that last line too, then re-join and strip. -/
def stripFence (cleaned : List Char) : List Char :=
  let lines := pySplitNL cleaned
  let e :=
    if pyStrip (lines.getLastD []) = "```".toList then lines.length - 1
    else lines.length
  pyStrip (pyJoinNL ((lines.drop 1).take (e - 1)))

/-- Stages 1–2 of `parse_tool_call`: whitespace strip, then fence strip when
the text starts with a triple backtick. -/
def cleanedText (text : List Char) : List Char :=
  if startsWithL (pyStrip text) "```".toList then stripFence (pyStrip text)
  else pyStrip text

/-- Stage 3: locate the first call-opening marker (zero- then one-space
variant) and truncate to the brace-balanced span from there; when neither
marker occurs the text is left unchanged. -/
def markerStage (cleaned : List Char) : List Char :=
  match pyFindSub cleaned callMarker1 with
  | some i => truncateToBalanced (cleaned.drop i)
  | none =>
    match pyFindSub cleaned callMarker2 with
    | some i => truncateToBalanced (cleaned.drop i)
    | none => cleaned

/-- Stage 4: `json.loads` plus validation — the parse must be a dict with a
`"tool_call"` entry that is itself a dict whose `"name"` is one of the
catalog names; everything else (including a parse error) yields `None`. -/
def validateParsed : Option Json → Option Json
  | some (Json.obj fields) =>
    match objLookup fields "tool_call" with
    | some (Json.obj tcFields) =>
      match objLookup tcFields "name" with
      | some (Json.str n) => if n ∈ toolNames then some (Json.obj tcFields) else none
      | _ => none
    | _ => none
  | _ => none

/-- `parse_tool_call` from `main.py`: the Tool-Call Extractor.  Total —
the Python body catches its only throwing step (`json.loads`). -/
def parse_tool_call (text : List Char) : Option Json :=
  validateParsed (pyLoads (markerStage (cleanedText text)))

/-! ## UI-tree element builders (`ui_trees.py`)

Optional string/number arguments that the Python code guards with `if x:`
are modelled as `Json` with `Json.null` for an omitted argument, so Python
truthiness (`pyTruthy`) applies uniformly. -/

/-- `x or y` on values (Python's short-circuiting `or`). -/
def pyOr (a b : Json) : Json := if pyTruthy a then a else b

def create_ui_tree (rootKey : String) (elements : List (String × Json)) : Json :=
  .obj [("_type", .str "ui-tree"), ("root", .str rootKey), ("elements", .obj elements)]

def card (key : String) (title : Json) (description : Json)
    (children : List String) : String × Json :=
  let props := (if pyTruthy title then [("title", title)] else [])
    ++ (if pyTruthy description then [("description", description)] else [])
  (key, .obj [("key", .str key), ("type", .str "Card"), ("props", .obj props),
              ("children", .arr (children.map Json.str))])

def grid (key : String) (columns : Int) (gap : String)
    (children : List String) : String × Json :=
  (key, .obj [("key", .str key), ("type", .str "Grid"),
              ("props", .obj [("columns", .intNum columns), ("gap", .str gap)]),
              ("children", .arr (children.map Json.str))])

def stack (key : String) (direction : String) (gap : String)
    (children : List String) : String × Json :=
  (key, .obj [("key", .str key), ("type", .str "Stack"),
              ("props", .obj [("direction", .str direction), ("gap", .str gap)]),
              ("children", .arr (children.map Json.str))])

def metric (key label : String) (value : Json) (format : Json)
    (trend : Json) (trendValue : Json) : String × Json :=
  let props := [("label", Json.str label), ("value", value)]
    ++ (if pyTruthy format then [("format", format)] else [])
    ++ (if pyTruthy trend then [("trend", trend)] else [])
    ++ (if pyTruthy trendValue then [("trendValue", trendValue)] else [])
  (key, .obj [("key", .str key), ("type", .str "Metric"), ("props", .obj props)])

def table (key : String) (columns data : List Json) (striped : Bool) :
    String × Json :=
  (key, .obj [("key", .str key), ("type", .str "Table"),
              ("props", .obj [("columns", .arr columns), ("data", .arr data),
                              ("striped", .bool striped)])])

def chart (key : String) (chartType : Json) (data : List Json)
    (title : Json) (height : Json) : String × Json :=
  let props := [("type", chartType), ("data", Json.arr data)]
    ++ (if pyTruthy title then [("title", title)] else [])
    ++ (if pyTruthy height then [("height", height)] else [])
  (key, .obj [("key", .str key), ("type", .str "Chart"), ("props", .obj props)])

def progress (key : String) (value : Int) (label : Json)
    (showValue : Bool) : String × Json :=
  let props := [("value", Json.intNum value)]
    ++ (if pyTruthy label then [("label", label)] else [])
    ++ (if showValue then [("showValue", Json.bool showValue)] else [])
  (key, .obj [("key", .str key), ("type", .str "Progress"), ("props", .obj props)])

def button (key label actionName : String) (actionParams : Json)
    (variant : String) (size : String) : String × Json :=
  let action := [("name", Json.str actionName)]
    ++ (if pyTruthy actionParams then [("params", actionParams)] else [])
  (key, .obj [("key", .str key), ("type", .str "Button"),
              ("props", .obj [("label", .str label), ("action", .obj action),
                              ("variant", .str variant), ("size", .str size)])])

def alert (key title : String) (description : Json)
    (variant : String) : String × Json :=
  let props := [("title", Json.str title), ("variant", Json.str variant)]
    ++ (if pyTruthy description then [("description", description)] else [])
  (key, .obj [("key", .str key), ("type", .str "Alert"), ("props", .obj props)])

def filter_panel (key : String) (filters : List Json) (title : Json)
    (activeFilters : Json) : String × Json :=
  let props := [("filters", Json.arr filters)]
    ++ (if pyTruthy title then [("title", title)] else [])
    ++ (if pyTruthy activeFilters then [("activeFilters", activeFilters)] else [])
  (key, .obj [("key", .str key), ("type", .str "FilterPanel"), ("props", .obj props)])

def document_preview (key : String) (title : Json) (docType : String)
    (sections : List Json) (status : Json) (metadata : Json) :
    String × Json :=
  let props := [("title", title), ("type", Json.str docType), ("sections", Json.arr sections)]
    ++ (if pyTruthy status then [("status", status)] else [])
    ++ (if pyTruthy metadata then [("metadata", metadata)] else [])
  (key, .obj [("key", .str key), ("type", .str "DocumentPreview"), ("props", .obj props)])

/-! ## `execute_tool` (`main.py`)

`executeTool name input` returns `none` exactly where the Python body raises
(a `TypeError`/`AttributeError` escaping `execute_tool`), which the streaming
drivers surface as an in-band `error` event; `some result` models a normal
return.  The raising paths are:
* any branch that reads `tool_input.get(...)` when `input` is not a dict;
* `get_analytics_dashboard` when `metrics` is not iterable, or contains an
  unhashable (list/dict) element;
* `show_data_table` when `data_type` is not a string (the eagerly evaluated
  `f"{data_type.title()} Data"` default argument raises `AttributeError`). -/

def jstr : String → Json := Json.str

/-- `metrics_data` rows applied to `metric(*data)`. -/
def analyticsMetric : String → Option (String × Json)
  | "revenue" =>
    some (metric "revenue" "Total Revenue" (.intNum 125000) (jstr "currency")
      (jstr "up") (jstr "+12.5%"))
  | "users" =>
    some (metric "users" "Active Users" (.intNum 8432) (jstr "number")
      (jstr "up") (jstr "+5.2%"))
  | "orders" =>
    some (metric "orders" "Orders" (.intNum 1247) (jstr "number")
      (jstr "down") (jstr "-2.1%"))
  | "conversion" =>
    some (metric "conversion" "Conversion Rate" (.floatNum 32 (-1)) (jstr "percent")
      (jstr "neutral") .null)
  | _ => none

/-- Python iteration (`for x in v`) over the value kinds that are iterable;
`none` models the `TypeError` for the rest. -/
def pyIterElems : Json → Option (List Json)
  | .arr xs => some xs
  | .str s => some (s.toList.map (fun c => Json.str c.toString))
  | .obj fs => some (fs.map (fun kv => Json.str kv.1))
  | _ => none

/-- `[m for m in requested if m in metrics_data]`: membership in a dict with
string keys; an unhashable element (list/dict) raises. -/
def selectMetricKeys : List Json → Option (List String)
  | [] => some []
  | .arr _ :: _ => none
  | .obj _ :: _ => none
  | .str k :: rest =>
    (selectMetricKeys rest).map
      (fun r => if (analyticsMetric k).isSome then k :: r else r)
  | _ :: rest => selectMetricKeys rest

def usersTableColumns : List Json :=
  [.obj [("key", jstr "name"), ("label", jstr "Name")],
   .obj [("key", jstr "email"), ("label", jstr "Email")],
   .obj [("key", jstr "status"), ("label", jstr "Status")]]

def usersTableData : List Json :=
  [.obj [("name", jstr "Alice Johnson"), ("email", jstr "alice@example.com"),
         ("status", jstr "Active")],
   .obj [("name", jstr "Bob Smith"), ("email", jstr "bob@example.com"),
         ("status", jstr "Active")],
   .obj [("name", jstr "Carol White"), ("email", jstr "carol@example.com"),
         ("status", jstr "Inactive")],
   .obj [("name", jstr "David Brown"), ("email", jstr "david@example.com"),
         ("status", jstr "Active")]]

def ordersTableColumns : List Json :=
  [.obj [("key", jstr "id"), ("label", jstr "Order ID")],
   .obj [("key", jstr "customer"), ("label", jstr "Customer")],
   .obj [("key", jstr "total"), ("label", jstr "Total"), ("format", jstr "currency")],
   .obj [("key", jstr "status"), ("label", jstr "Status")]]

def ordersTableData : List Json :=
  [.obj [("id", jstr "#1001"), ("customer", jstr "Alice"),
         ("total", .floatNum 12999 (-2)), ("status", jstr "Shipped")],
   .obj [("id", jstr "#1002"), ("customer", jstr "Bob"),
         ("total", .floatNum 8950 (-2)), ("status", jstr "Processing")],
   .obj [("id", jstr "#1003"), ("customer", jstr "Carol"),
         ("total", .floatNum 24500 (-2)), ("status", jstr "Delivered")]]

def chartData : List Json :=
  [.obj [("label", jstr "Jan"), ("value", .intNum 120)],
   .obj [("label", jstr "Feb"), ("value", .intNum 150)],
   .obj [("label", jstr "Mar"), ("value", .intNum 180)],
   .obj [("label", jstr "Apr"), ("value", .intNum 140)],
   .obj [("label", jstr "May"), ("value", .intNum 200)],
   .obj [("label", jstr "Jun"), ("value", .intNum 175)]]

def selectOption (label value : String) : Json :=
  .obj [("label", jstr label), ("value", jstr value)]

def usersFilters : List Json :=
  [.obj [("id", jstr "name"), ("label", jstr "Name"), ("type", jstr "text"),
         ("placeholder", jstr "Search by name...")],
   .obj [("id", jstr "email"), ("label", jstr "Email"), ("type", jstr "text"),
         ("placeholder", jstr "Search by email...")],
   .obj [("id", jstr "status"), ("label", jstr "Status"), ("type", jstr "select"),
         ("options", .arr [selectOption "All Statuses" "all",
                           selectOption "Active" "active",
                           selectOption "Inactive" "inactive",
                           selectOption "Pending" "pending"])],
   .obj [("id", jstr "role"), ("label", jstr "Role"), ("type", jstr "select"),
         ("options", .arr [selectOption "All Roles" "all",
                           selectOption "Admin" "admin",
                           selectOption "User" "user",
                           selectOption "Guest" "guest"])],
   .obj [("id", jstr "created_after"), ("label", jstr "Created After"),
         ("type", jstr "date")],
   .obj [("id", jstr "verified"), ("label", jstr "Email Verified"),
         ("type", jstr "checkbox"), ("placeholder", jstr "Only verified users")]]

def ordersFilters : List Json :=
  [.obj [("id", jstr "order_id"), ("label", jstr "Order ID"), ("type", jstr "text"),
         ("placeholder", jstr "Search by order ID...")],
   .obj [("id", jstr "customer"), ("label", jstr "Customer"), ("type", jstr "text"),
         ("placeholder", jstr "Search by customer...")],
   .obj [("id", jstr "status"), ("label", jstr "Status"), ("type", jstr "select"),
         ("options", .arr [selectOption "All Statuses" "all",
                           selectOption "Pending" "pending",
                           selectOption "Processing" "processing",
                           selectOption "Shipped" "shipped",
                           selectOption "Delivered" "delivered",
                           selectOption "Cancelled" "cancelled"])],
   .obj [("id", jstr "min_total"), ("label", jstr "Min Total ($)"),
         ("type", jstr "number"), ("placeholder", jstr "0")],
   .obj [("id", jstr "max_total"), ("label", jstr "Max Total ($)"),
         ("type", jstr "number"), ("placeholder", jstr "10000")],
   .obj [("id", jstr "date_from"), ("label", jstr "From Date"), ("type", jstr "date")],
   .obj [("id", jstr "date_to"), ("label", jstr "To Date"), ("type", jstr "date")]]

def productsFilters : List Json :=
  [.obj [("id", jstr "name"), ("label", jstr "Product Name"), ("type", jstr "text"),
         ("placeholder", jstr "Search products...")],
   .obj [("id", jstr "category"), ("label", jstr "Category"), ("type", jstr "select"),
         ("options", .arr [selectOption "All Categories" "all",
                           selectOption "Electronics" "electronics",
                           selectOption "Clothing" "clothing",
                           selectOption "Home & Garden" "home",
                           selectOption "Sports" "sports"])],
   .obj [("id", jstr "min_price"), ("label", jstr "Min Price ($)"),
         ("type", jstr "number"), ("placeholder", jstr "0")],
   .obj [("id", jstr "max_price"), ("label", jstr "Max Price ($)"),
         ("type", jstr "number"), ("placeholder", jstr "1000")],
   .obj [("id", jstr "in_stock"), ("label", jstr "In Stock"),
         ("type", jstr "checkbox"), ("placeholder", jstr "Only in-stock items")]]

def customFilters : List Json :=
  [.obj [("id", jstr "search"), ("label", jstr "Search"), ("type", jstr "text"),
         ("placeholder", jstr "Search...")],
   .obj [("id", jstr "category"), ("label", jstr "Category"), ("type", jstr "select"),
         ("options", .arr [selectOption "All Categories" "all",
                           selectOption "Option A" "a",
                           selectOption "Option B" "b"])],
   .obj [("id", jstr "date"), ("label", jstr "Date"), ("type", jstr "date")]]

def docSection (heading content : String) : Json :=
  .obj [("heading", jstr heading), ("content", jstr content)]

def docSectionT (heading content ty : String) : Json :=
  .obj [("heading", jstr heading), ("content", jstr content), ("type", jstr ty)]

def docContent (content : String) : Json :=
  .obj [("content", jstr content)]

def docContentT (content ty : String) : Json :=
  .obj [("content", jstr content), ("type", jstr ty)]

def invoiceDoc (title : Json) : String × Json :=
  document_preview "invoice-doc" (pyOr title (jstr "Invoice #INV-2024-001")) "invoice"
    [docSection "Bill To"
       "Acme Corporation\n123 Business Ave\nNew York, NY 10001\ncontact@acme.com",
     docSection "From" "Your Company Inc.\n456 Commerce St\nLos Angeles, CA 90001",
     docSectionT "Items"
       "Web Development Services - $2,500.00\nUI/UX Design Package - $1,200.00\nMonthly Hosting (x3) - $150.00\nDomain Registration - $15.00"
       "list",
     docSection "Summary" "Subtotal: $3,865.00\nTax (8%): $309.20\nTotal Due: $4,174.20"]
    (jstr "final")
    (.obj [("Invoice Date", jstr "January 15, 2024"),
           ("Due Date", jstr "February 15, 2024"),
           ("Invoice #", jstr "INV-2024-001"),
           ("Payment Terms", jstr "Net 30")])

def reportDoc (title : Json) : String × Json :=
  document_preview "report-doc" (pyOr title (jstr "Q4 2024 Performance Report")) "report"
    [docSection "Executive Summary"
       "This report provides an overview of company performance for Q4 2024. Overall revenue increased by 15% compared to the previous quarter, with significant growth in the enterprise segment.",
     docSectionT "Key Metrics"
       "Revenue: $2.4M (+15%)\nNew Customers: 127 (+23%)\nChurn Rate: 2.1% (-0.5%)\nNPS Score: 72 (+8)"
       "list",
     docSectionT "Highlights"
       "Launched 3 new product features\nExpanded to 2 new markets\nAchieved SOC 2 compliance\nReduced support ticket volume by 18%"
       "list",
     docSection "Recommendations"
       "Based on Q4 performance, we recommend focusing on enterprise sales expansion and investing in customer success initiatives to maintain low churn rates."]
    (jstr "final")
    (.obj [("Period", jstr "Q4 2024"),
           ("Prepared By", jstr "Analytics Team"),
           ("Date", jstr "January 10, 2024")])

def letterDoc (title : Json) : String × Json :=
  document_preview "letter-doc" (pyOr title (jstr "Business Letter")) "letter"
    [docContent "Dear Valued Partner,",
     docContent "I am writing to express our sincere appreciation for your continued partnership over the past year. Your collaboration has been instrumental in our mutual success.",
     docContent "As we move into 2024, we are excited to announce several new initiatives that will strengthen our partnership and create new opportunities for growth.",
     docContent "We look forward to discussing these opportunities with you in our upcoming meeting scheduled for next month.",
     docContent "Best regards,",
     docContentT "John Smith, CEO" "signature"]
    (jstr "draft")
    (.obj [("Date", jstr "January 15, 2024"), ("Ref", jstr "BL-2024-001")])

def contractDoc (title : Json) : String × Json :=
  document_preview "contract-doc" (pyOr title (jstr "Service Agreement")) "contract"
    [docSection "Parties"
       "This Service Agreement ('Agreement') is entered into between Your Company Inc. ('Provider') and Client Corporation ('Client').",
     docSectionT "Scope of Services"
       "Provider agrees to deliver:\nMonthly consulting services (40 hours)\nQuarterly strategy reviews\n24/7 technical support\nAccess to premium features"
       "list",
     docSection "Compensation"
       "Client agrees to pay Provider $5,000 per month, due on the 1st of each month. Late payments are subject to a 1.5% monthly fee.",
     docSection "Term and Termination"
       "This Agreement shall remain in effect for 12 months from the Effective Date. Either party may terminate with 30 days written notice.",
     docContentT "Provider Signature" "signature",
     docContentT "Client Signature" "signature"]
    (jstr "pending")
    (.obj [("Contract #", jstr "SA-2024-0042"),
           ("Effective Date", jstr "February 1, 2024"),
           ("Term", jstr "12 months")])

def receiptDoc (title : Json) : String × Json :=
  document_preview "receipt-doc" (pyOr title (jstr "Payment Receipt")) "receipt"
    [docSection "Received From" "John Doe\njohn.doe@email.com",
     docSectionT "Items Purchased"
       "Premium Subscription (Annual) - $99.00\nSetup Fee - $25.00"
       "list",
     docSection "Payment Details"
       "Subtotal: $124.00\nDiscount (10%): -$12.40\nTotal Paid: $111.60",
     docContent "Thank you for your purchase! This receipt confirms your payment has been processed successfully."]
    (jstr "final")
    (.obj [("Receipt #", jstr "RCP-20240115-001"),
           ("Date", jstr "January 15, 2024"),
           ("Payment Method", jstr "Credit Card")])

def customDoc (title : Json) : String × Json :=
  document_preview "custom-doc" (pyOr title (jstr "Document")) "custom"
    [docSection "Content" "Document content goes here."]
    (jstr "draft") .null

/-- The `get_analytics_dashboard` branch (requires a dict `tool_input`,
handled by the caller `executeTool`). -/
def analyticsDashboard (fs : List (String × Json)) : Option Json :=
  let requested := objGetD fs "metrics"
    (.arr [jstr "revenue", jstr "users", jstr "orders", jstr "conversion"])
  match pyIterElems requested with
  | none => none
  | some elems =>
    match selectMetricKeys elems with
    | none => none
    | some metricKeys =>
      let elements := metricKeys.foldl
        (fun acc k =>
          match analyticsMetric k with
          | some kv => dictInsert acc kv.1 kv.2
          | none => acc) []
      let g := grid "metrics-grid" (metricKeys.length : Int) "md" metricKeys
      let elements := dictInsert elements g.1 g.2
      let b := button "refresh-btn" "Refresh Data" "refresh" .null "secondary" "default"
      let elements := dictInsert elements b.1 b.2
      let c := card "dashboard" (jstr "Analytics Dashboard")
        (jstr "Real-time business metrics") ["metrics-grid", "refresh-btn"]
      let elements := dictInsert elements c.1 c.2
      some (create_ui_tree "dashboard" elements)

/-- The `show_data_table` branch. -/
def showDataTable (fs : List (String × Json)) : Option Json :=
  match objGetD fs "data_type" (jstr "users") with
  | .str dts =>
    let title := objGetD fs "title" (jstr (pyTitle dts ++ " Data"))
    let cd : List Json × List Json :=
      if dts = "users" then (usersTableColumns, usersTableData)
      else if dts = "orders" then (ordersTableColumns, ordersTableData)
      else ([.obj [("key", jstr "item"), ("label", jstr "Item")]],
            [.obj [("item", jstr "No data available")]])
    let t := table "data-table" cd.1 cd.2 true
    let elements := dictInsert [] t.1 t.2
    let c := card "table-card" title .null ["data-table"]
    let elements := dictInsert elements c.1 c.2
    some (create_ui_tree "table-card" elements)
  | _ => none

/-- The `show_chart` branch. -/
def showChart (fs : List (String × Json)) : Json :=
  let chartType := objGetD fs "chart_type" (jstr "bar")
  let title := objGetD fs "title" (jstr "Monthly Sales")
  let ch := chart "main-chart" chartType chartData title (.intNum 250)
  let elements := dictInsert [] ch.1 ch.2
  let c := card "chart-card" title .null ["main-chart"]
  let elements := dictInsert elements c.1 c.2
  create_ui_tree "chart-card" elements

/-- The `show_status` branch (touches no input). -/
def showStatus : Json :=
  let p := progress "task-progress" 75 (jstr "Task Completion") true
  let elements := dictInsert [] p.1 p.2
  let a := alert "status-alert" "System Status"
    (jstr "All services are running normally.") "default"
  let elements := dictInsert elements a.1 a.2
  let s := stack "status-stack" "vertical" "md" ["task-progress", "status-alert"]
  let elements := dictInsert elements s.1 s.2
  let c := card "status-card" (jstr "System Status") .null ["status-stack"]
  let elements := dictInsert elements c.1 c.2
  create_ui_tree "status-card" elements

/-- The `show_filter_panel` branch. -/
def showFilterPanel (fs : List (String × Json)) : Json :=
  let dt := objGetD fs "data_type" (jstr "users")
  let title0 := objGetD fs "title" .null
  let ft : List Json × Json :=
    match dt with
    | .str "users" => (usersFilters, pyOr title0 (jstr "Filter Users"))
    | .str "orders" => (ordersFilters, pyOr title0 (jstr "Filter Orders"))
    | .str "products" => (productsFilters, pyOr title0 (jstr "Filter Products"))
    | _ => (customFilters, pyOr title0 (jstr "Filters"))
  let fp := filter_panel "filter-panel" ft.1 ft.2 .null
  let elements := dictInsert [] fp.1 fp.2
  create_ui_tree "filter-panel" elements

/-- The `generate_document` branch. -/
def generateDocument (fs : List (String × Json)) : Json :=
  let docType := objGetD fs "doc_type" (jstr "invoice")
  let title := objGetD fs "title" .null
  let de : String × Json :=
    match docType with
    | .str "invoice" => invoiceDoc title
    | .str "report" => reportDoc title
    | .str "letter" => letterDoc title
    | .str "contract" => contractDoc title
    | .str "receipt" => receiptDoc title
    | _ => customDoc title
  let elements := dictInsert [] de.1 de.2
  create_ui_tree de.1 elements

/-- `execute_tool(tool_name, tool_input)`: branches on the tool name; the
final fallthrough returns the structured unknown-tool error payload without
touching `tool_input` at all. -/
def executeTool (name : String) (input : Json) : Option Json :=
  if name = "get_analytics_dashboard" then
    match input with
    | .obj fs => analyticsDashboard fs
    | _ => none
  else if name = "show_data_table" then
    match input with
    | .obj fs => showDataTable fs
    | _ => none
  else if name = "show_chart" then
    match input with
    | .obj fs => some (showChart fs)
    | _ => none
  else if name = "show_status" then
    some showStatus
  else if name = "show_filter_panel" then
    match input with
    | .obj fs => some (showFilterPanel fs)
    | _ => none
  else if name = "generate_document" then
    match input with
    | .obj fs => some (generateDocument fs)
    | _ => none
  else
    some (.obj [("error", jstr ("Unknown tool: " ++ name))])

/-! ## The unified stream-event vocabulary

One constructor per `format_sse({...})` payload shape in `main.py`; `done`
models the literal terminal `data: [DONE]` line.  The `start` preamble and
the two synthesized uuids are parameters of the driver models. -/

inductive Event where
  | start (messageId : String)
  | textStart (id : String)
  | textDelta (id : String) (delta : String)
  | textEnd (id : String)
  | toolInputStart (toolCallId toolName : String)
  | toolInputDelta (toolCallId inputTextDelta : String)
  | toolInputAvailable (toolCallId toolName : String) (input : Json)
  | toolOutputAvailable (toolCallId : String) (output : Json)
  | finish
  | error (errorText : String)
  | done

/-- Both handlers hardcode `text_id = "text-1"`. -/
def textId : String := "text-1"

/-- Placeholder for `str(e)` of an exception raised by `execute_tool`
(no claim inspects the error text). -/
def execErrText : String := "tool execution failed"

/-! ## Prompt-Tooling Driver (`chat_via_proxy`)

The provider stream is modelled as the list of chunk contents
(`chunk.choices[0].delta.content`, empty list = falsy content) followed by
either a clean end (`provErr = none`) or an exception raised while pulling
chunks (`provErr = some msg`, the message being `str(e)`).  An exception
after `k` chunks were processed is the input with just those `k` chunks and
`provErr` set. -/

structure PState where
  buffer : List Char
  isToolCall : Option Bool
  textStarted : Bool

def pInit : PState := ⟨[], none, false⟩

/-- One iteration of the `async for chunk ...` loop body. -/
def stepFrag (st : PState) (content : List Char) : PState × List Event :=
  if content.isEmpty then (st, [])
  else
    match st.isToolCall with
    | none =>
      let buf := st.buffer ++ content
      if containsSub buf bufferMarker then (⟨buf, some true, st.textStarted⟩, [])
      else if 30 ≤ buf.length then
        (⟨[], some false, true⟩,
         [Event.textStart textId, Event.textDelta textId buf.asString])
      else (⟨buf, none, st.textStarted⟩, [])
    | some true => (⟨st.buffer ++ content, some true, st.textStarted⟩, [])
    | some false => (st, [Event.textDelta textId content.asString])

def processFrags : PState → List (List Char) → PState × List Event
  | st, [] => (st, [])
  | st, c :: cs =>
    ((processFrags (stepFrag st c).1 cs).1,
     (stepFrag st c).2 ++ (processFrags (stepFrag st c).1 cs).2)

/-- The field list of a parsed tool call (always a dict by construction). -/
def tcFieldsOf (tc : Json) : List (String × Json) :=
  match tc with
  | .obj f => f
  | _ => []

/-- `tc["name"]` (guaranteed to be a catalog-name string by the extractor). -/
def tcNameOf (tc : Json) : String :=
  match objLookup (tcFieldsOf tc) "name" with
  | some (.str n) => n
  | _ => ""

/-- `tc.get("input", {})`. -/
def tcInputOf (tc : Json) : Json := objGetD (tcFieldsOf tc) "input" (.obj [])

/-- The `if is_tool_call:` block: re-parse the buffer; on success emit the
tool-input triple, execute, and emit the output (an exception from
`execute_tool` escapes to the handler's `except`, producing the `error`
event); on failure fall back to flushing the buffer as text. -/
def toolBlock (callId : String) (buffer : List Char) (ts : Bool) : List Event :=
  match parse_tool_call buffer with
  | some tc =>
    [Event.toolInputStart callId (tcNameOf tc),
     Event.toolInputDelta callId (dumpsPy (tcInputOf tc)),
     Event.toolInputAvailable callId (tcNameOf tc) (tcInputOf tc)]
    ++ match executeTool (tcNameOf tc) (tcInputOf tc) with
       | some result =>
         Event.toolOutputAvailable callId result ::
           (if ts then [Event.textEnd textId] else []) ++ [Event.finish]
       | none => [Event.error execErrText]
  | none =>
    [Event.textStart textId, Event.textDelta textId buffer.asString,
     Event.textEnd textId, Event.finish]

/-- Everything after the chunk loop: the undecided-short-response check, the
tool block, the text close, and `finish`. -/
def endPhase (callId : String) (st : PState) : List Event :=
  match st.isToolCall with
  | none =>
    if (pyStrip st.buffer).isEmpty then
      (if st.textStarted then [Event.textEnd textId] else []) ++ [Event.finish]
    else
      match parse_tool_call st.buffer with
      | some _ => toolBlock callId st.buffer st.textStarted
      | none =>
        [Event.textStart textId, Event.textDelta textId st.buffer.asString,
         Event.textEnd textId, Event.finish]
  | some true => toolBlock callId st.buffer st.textStarted
  | some false =>
    (if st.textStarted then [Event.textEnd textId] else []) ++ [Event.finish]

/-- The full `chat_via_proxy` generator output for one request. -/
def chat_via_proxy (msgId callId : String) (frags : List (List Char))
    (provErr : Option String) : List Event :=
  Event.start msgId ::
    (match provErr with
     | some m => (processFrags pInit frags).2 ++ [Event.error m, Event.done]
     | none =>
       (processFrags pInit frags).2 ++ endPhase callId (processFrags pInit frags).1
         ++ [Event.done])

/-! ## Native-Tooling Driver (`chat_via_anthropic`)

A simulated provider is a list of `ProviderTurn`s, one per
`client.messages.stream(...)` call: either a turn (its in-stream events, the
final message's stop reason and content) or an exception raised by the call.
`anthropicLoop` returns `outOfTurns` when the `while True:` loop asks for a
provider call beyond the simulated sequence — such a sequence does not
determine the driver's output, and `chat_via_anthropic` is `none` on it. -/

inductive AEvent where
  | blockStartToolUse (id name : String)
  | blockStartText
  | blockDeltaText (text : String)
  | blockDeltaInputJson (pj : List Char)
  | blockStop

structure PendTool where
  id : String
  name : String
  inputStr : List Char

structure ToolUse where
  id : String
  name : String
  input : Json

structure Turn where
  events : List AEvent
  stopReason : String
  finalContent : Json

inductive ProviderTurn where
  | turn (t : Turn)
  | raise (msg : String)

structure StepOut where
  ts : Bool
  ct : Option PendTool
  newUse : Option ToolUse
  events : List Event

/-- One iteration of the `async for event in stream` body. -/
def stepAEvent (ts : Bool) (ct : Option PendTool) : AEvent → StepOut
  | .blockStartToolUse i n =>
    ⟨ts, some ⟨i, n, []⟩, none, [Event.toolInputStart i n]⟩
  | .blockStartText => ⟨ts, ct, none, []⟩
  | .blockDeltaText s =>
    if ts then ⟨ts, ct, none, [Event.textDelta textId s]⟩
    else ⟨true, ct, none, [Event.textStart textId, Event.textDelta textId s]⟩
  | .blockDeltaInputJson pj =>
    match ct with
    | some p =>
      ⟨ts, some ⟨p.id, p.name, p.inputStr ++ pj⟩, none,
       [Event.toolInputDelta p.id pj.asString]⟩
    | none => ⟨ts, none, none, []⟩
  | .blockStop =>
    match ct with
    | some p =>
      let input :=
        if p.inputStr.isEmpty then Json.obj []
        else match pyLoads p.inputStr with
          | some v => v
          | none => Json.obj []
      ⟨ts, none, some ⟨p.id, p.name, input⟩,
       [Event.toolInputAvailable p.id p.name input]⟩
    | none => ⟨ts, none, none, []⟩

structure TurnResult where
  textStarted : Bool
  pending : Option PendTool
  events : List Event
  toolUses : List ToolUse

/-- The whole in-stream event loop of one provider turn. -/
def processTurn : Bool → Option PendTool → List AEvent → TurnResult
  | ts, ct, [] => ⟨ts, ct, [], []⟩
  | ts, ct, e :: rest =>
    let s := stepAEvent ts ct e
    let r := processTurn s.ts s.ct rest
    ⟨r.textStarted, r.pending, s.events ++ r.events,
     (match s.newUse with
      | some tu => tu :: r.toolUses
      | none => r.toolUses)⟩

structure ExecOut where
  events : List Event
  results : Option (List Json)

/-- `for tool_call in tool_uses: result = execute_tool(...)` — emits one
`tool-output-available` per executed call and builds the `tool_result`
blocks; an exception from `execute_tool` stops the loop (`results = none`). -/
def execTools : List ToolUse → ExecOut
  | [] => ⟨[], some []⟩
  | tu :: rest =>
    match executeTool tu.name tu.input with
    | some result =>
      let r := execTools rest
      ⟨Event.toolOutputAvailable tu.id result :: r.events,
       r.results.map (fun rs =>
         Json.obj [("type", jstr "tool_result"), ("tool_use_id", jstr tu.id),
                   ("content", jstr (dumpsPy result))] :: rs)⟩
    | none => ⟨[], none⟩

inductive RunOut where
  | ok (events : List Event) (calls : Nat)
  | failed (events : List Event) (msg : String) (calls : Nat)
  | outOfTurns

/-- All stream events of one provider turn: the in-stream loop's output
followed by the text close (`if text_started: ... text-end`). -/
def turnEvents (t : Turn) : List Event :=
  (processTurn false none t.events).events ++
    (if (processTurn false none t.events).textStarted then [Event.textEnd textId]
     else [])

/-- The `while True:` loop: `conv` is `current_messages`, `calls` counts
provider stream calls. -/
def anthropicLoop : List (String × Json) → List ProviderTurn → RunOut
  | _, [] => .outOfTurns
  | _, .raise m :: _ => .failed [] m 1
  | conv, .turn t :: rest =>
    if (processTurn false none t.events).toolUses.isEmpty
        || t.stopReason ≠ "tool_use" then
      .ok (turnEvents t) 1
    else
      match (execTools (processTurn false none t.events).toolUses).results with
      | none =>
        .failed (turnEvents t ++
          (execTools (processTurn false none t.events).toolUses).events) execErrText 1
      | some results =>
        match anthropicLoop
            (conv ++ [("assistant", t.finalContent), ("user", Json.arr results)])
            rest with
        | .ok evs n =>
          .ok (turnEvents t ++
            (execTools (processTurn false none t.events).toolUses).events ++ evs) (n + 1)
        | .failed evs m n =>
          .failed (turnEvents t ++
            (execTools (processTurn false none t.events).toolUses).events ++ evs) m (n + 1)
        | .outOfTurns => .outOfTurns

/-- The full `chat_via_anthropic` generator output for one request, together
with the number of provider stream calls performed. -/
def chat_via_anthropic (msgId : String) (conv : List (String × Json))
    (pts : List ProviderTurn) : Option (List Event × Nat) :=
  match anthropicLoop conv pts with
  | .ok evs n => some (Event.start msgId :: evs ++ [Event.finish, Event.done], n)
  | .failed evs m n => some (Event.start msgId :: evs ++ [Event.error m, Event.done], n)
  | .outOfTurns => none

/-! ## Chat Orchestrator message flattening (`chat`, lines 685–692) -/

structure MessagePart where
  type : String
  text : String

structure ChatMessage where
  role : String
  parts : List MessagePart

/-- The inbound-message flattening loop: concatenate the text parts of each
message and keep only messages with non-empty (truthy) content. -/
def flattenMessages (msgs : List ChatMessage) : List (String × String) :=
  msgs.foldl
    (fun acc m =>
      let content := m.parts.foldl
        (fun c p => if p.type = "text" then c ++ p.text else c) ""
      if content ≠ "" then acc ++ [(m.role, content)] else acc)
    []

/-! ## Stream-framing and tool-block checkers (the spec invariants) -/

def isTermEvent : Event → Bool
  | .finish => true
  | .error _ => true
  | .done => true
  | _ => false

/-- No `finish`, `error` or `[DONE]` among these events. -/
def noTerm (evs : List Event) : Bool := evs.all (fun e => !isTermEvent e)

/-- One framing step over the multiset of currently open stream ids:
`text-start`/`tool-input-start` open their id, `text-end`/
`tool-input-available` close one occurrence of theirs (closing an id that is
not open fails the check); all other events leave the open set unchanged. -/
def stepOpens (opens : List String) : Event → Option (List String)
  | .textStart i => some (i :: opens)
  | .textEnd i => if i ∈ opens then some (opens.erase i) else none
  | .toolInputStart i _ => some (i :: opens)
  | .toolInputAvailable i _ _ => if i ∈ opens then some (opens.erase i) else none
  | _ => some opens

def runOpens : List String → List Event → Option (List String)
  | o, [] => some o
  | o, e :: rest =>
    match stepOpens o e with
    | some o' => runOpens o' rest
    | none => none

/-- The framing invariant of the spec: the stream ends with exactly one
`[DONE]` immediately after a single `finish` or `error`; no earlier
`finish`/`error`/`[DONE]`; every opened id is closed exactly once before
`finish` (an `error` ending supersedes the balance requirement). -/
def framedAux : List String → List Event → Bool
  | opens, [Event.finish, Event.done] => opens.isEmpty
  | _, [Event.error _, Event.done] => true
  | opens, e :: rest =>
    if isTermEvent e then false
    else match stepOpens opens e with
      | some o => framedAux o rest
      | none => false
  | _, [] => false

def framedCheck (evs : List Event) : Bool := framedAux [] evs

/-- Framing of a Native-Tooling Driver run; a simulated sequence too short to
complete the loop determines no output and passes vacuously. -/
def framedOfRun : Option (List Event × Nat) → Bool
  | none => true
  | some (evs, _) => framedCheck evs

/-- Content-block balance of one simulated provider turn: a `tool_use`
content block that is opened is stopped before the turn ends and never
overwritten by a second `content_block_start`. -/
def turnBalancedAux : Bool → List AEvent → Bool
  | openFlag, [] => !openFlag
  | openFlag, .blockStartToolUse _ _ :: rest => !openFlag && turnBalancedAux true rest
  | _, .blockStop :: rest => turnBalancedAux false rest
  | openFlag, _ :: rest => turnBalancedAux openFlag rest

def turnBalanced (evts : List AEvent) : Bool := turnBalancedAux false evts

def wellFormedPts (pts : List ProviderTurn) : Bool :=
  pts.all fun pt =>
    match pt with
    | .turn t => turnBalanced t.events
    | .raise _ => true

def isToolEvent : Event → Bool
  | .toolInputStart _ _ => true
  | .toolInputDelta _ _ => true
  | .toolInputAvailable _ _ _ => true
  | .toolOutputAvailable _ _ => true
  | _ => false

def noToolEvents (evs : List Event) : Bool := evs.all (fun e => !isToolEvent e)

/-- The Prompt-Tooling Driver's tool-event contract: tool events occur in at
most one contiguous block `tool-input-start`, one `tool-input-delta` carrying
the default-separator re-serialization of the parsed input,
`tool-input-available`, and then `tool-output-available` carrying exactly
`execute_tool`'s result — or an `error` event exactly when `execute_tool`
raised — all with the same synthesized call id. -/
def singleToolBlockShape : List Event → Bool
  | [] => true
  | Event.toolInputStart cid n :: rest =>
    (match rest with
     | Event.toolInputDelta cid2 d :: Event.toolInputAvailable cid3 n3 i :: rest2 =>
       cid2 = cid && cid3 = cid && n3 = n && d = dumpsPy i &&
       (match rest2 with
        | Event.toolOutputAvailable cid4 out :: rest3 =>
          cid4 = cid &&
          (match executeTool n i with
           | some r => Json.beq out r
           | none => false) && noToolEvents rest3
        | Event.error _ :: rest3 => (executeTool n i).isNone && noToolEvents rest3
        | _ => false)
     | _ => false)
  | e :: rest => !isToolEvent e && singleToolBlockShape rest

def isToa : Event → Bool
  | .toolOutputAvailable _ _ => true
  | _ => false

def noToa (evs : List Event) : Bool := evs.all (fun e => !isToa e)

/-- Number of `tool-output-available` events emitted strictly before the
first `finish`. -/
def toaBeforeFinish : List Event → Nat
  | [] => 0
  | Event.finish :: _ => 0
  | Event.toolOutputAvailable _ _ :: rest => toaBeforeFinish rest + 1
  | _ :: rest => toaBeforeFinish rest

/-! ## Auxiliary definitions used by the theorem statements -/

/-- The inner part-concatenation loop of the orchestrator (`content`). -/
def msgContent (m : ChatMessage) : String :=
  m.parts.foldl (fun c p => if p.type = "text" then c ++ p.text else c) ""

/-- One step of the orchestrator's message loop, named for the proofs. -/
def flattenStep (acc : List (String × String)) (m : ChatMessage) :
    List (String × String) :=
  if msgContent m ≠ "" then acc ++ [(m.role, msgContent m)] else acc

/-- Keep a message exactly when its concatenated text content is non-empty. -/
def flattenSel (m : ChatMessage) : Option (String × String) :=
  if msgContent m = "" then none else some (m.role, msgContent m)

/-- The returned value is a dict whose `name` is a declared catalog tool. -/
def validName (j : Json) : Prop :=
  match j with
  | .obj flds =>
    match objLookup flds "name" with
    | some (.str n) => n ∈ toolNames
    | _ => False
  | _ => False

/-- A whole-text tool call whose opening brace is followed by two spaces:
neither call-opening marker occurs in it. -/
def spacedCall : List Char :=
  "\x7b  \"tool_call\": \x7b\"name\": \"show_chart\", \"input\": \x7b\x7d\x7d\x7d".toList

/-- The spec's reference call JSON
`{"tool_call":{"name":"show_chart","input":{"chart_type":"bar"}}}`. -/
def showChartCall : List Char :=
  "\x7b\"tool_call\":\x7b\"name\":\"show_chart\",\"input\":\x7b\"chart_type\":\"bar\"\x7d\x7d\x7d".toList

/-- The exact inner object of `showChartCall`. -/
def showChartInner : Json :=
  .obj [("name", jstr "show_chart"), ("input", .obj [("chart_type", jstr "bar")])]

/-- Open-id set maintained by the Prompt-Tooling Driver's chunk loop. -/
def stOpens (st : PState) : List String :=
  if st.textStarted then [textId] else []

/-- Loop-phase invariant of the proxy state: the text stream has started only
after the buffer was classified as plain text. -/
def pWf (st : PState) : Prop := st.isToolCall ≠ some false → st.textStarted = false

/-- Open ids contributed by a started text stream. -/
def tsOpens (ts : Bool) : List String := if ts then [textId] else []

/-- Open ids contributed by a pending tool content block. -/
def ctOpens : Option PendTool → List String
  | some p => [p.id]
  | none => []

/-! # Theorems -/

set_option maxRecDepth 100000

theorem flatten_foldl_aux (ms : List ChatMessage) :
    ∀ acc : List (String × String),
      ms.foldl flattenStep acc = acc ++ ms.filterMap flattenSel := by
  induction ms with
  | nil => intro acc; simp
  | cons m rest ih =>
    intro acc
    rw [List.foldl_cons, List.filterMap_cons]
    by_cases h : msgContent m = ""
    · rw [show flattenStep acc m = acc from by simp [flattenStep, h]]
      rw [show flattenSel m = none from by simp [flattenSel, h]]
      exact ih acc
    · rw [show flattenStep acc m = acc ++ [(m.role, msgContent m)] from by
        simp [flattenStep, h]]
      rw [show flattenSel m = some (m.role, msgContent m) from by simp [flattenSel, h]]
      rw [ih]
      simp

/-- C10: when the Chat Orchestrator flattens inbound message parts, every
message whose concatenation of text-typed parts is empty (including messages
with no text parts) is dropped from the list handed to the driver, and all
other messages keep their relative order and roles: the loop equals a
`filterMap` that keeps exactly the messages with non-empty concatenated text,
selecting their role and content. -/
theorem orchestrator_flatten_filter (msgs : List ChatMessage) :
    flattenMessages msgs = msgs.filterMap flattenSel := by
  have hdef : flattenMessages msgs = msgs.foldl flattenStep [] := rfl
  rw [hdef]
  simpa using flatten_foldl_aux msgs []

/-- C8: for every name that is not a declared catalog tool and every
JSON-object input, `execute_tool` returns the structured payload
`{"error": "Unknown tool: <name>"}` (it reaches the fallthrough return
without touching the input, hence never raises). -/
theorem execute_unknown_tool_error (name : String) (fields : List (String × Json))
    (h : name ∉ toolNames) :
    executeTool name (.obj fields) =
      some (.obj [("error", Json.str ("Unknown tool: " ++ name))]) := by
  simp only [toolNames, List.mem_cons, not_or, List.not_mem_nil] at h
  obtain ⟨h1, h2, h3, h4, h5, h6, -⟩ := h
  simp [executeTool, h1, h2, h3, h4, h5, h6, jstr]

theorem execute_unknown_tool_error_witness :
    executeTool "frobnicate" (.obj []) =
      some (.obj [("error", Json.str ("Unknown tool: " ++ "frobnicate"))]) :=
  execute_unknown_tool_error "frobnicate" [] (by decide)

/-- C9: Tool Catalog execution is deterministic — two calls of the embedded
(pure, state-free) `execute_tool` on identical arguments serialize to
identical bytes, and `execute("show_data_table", {"data_type":"users"})`
serializes to one fixed byte string. -/
theorem execute_tool_deterministic :
    (∀ (name : String) (input : Json),
      (executeTool name input).map dumpsC = (executeTool name input).map dumpsC) ∧
    (executeTool "show_data_table" (.obj [("data_type", Json.str "users")])).map dumpsC =
      some "\x7b\"_type\":\"ui-tree\",\"root\":\"table-card\",\"elements\":\x7b\"data-table\":\x7b\"key\":\"data-table\",\"type\":\"Table\",\"props\":\x7b\"columns\":[\x7b\"key\":\"name\",\"label\":\"Name\"\x7d,\x7b\"key\":\"email\",\"label\":\"Email\"\x7d,\x7b\"key\":\"status\",\"label\":\"Status\"\x7d],\"data\":[\x7b\"name\":\"Alice Johnson\",\"email\":\"alice@example.com\",\"status\":\"Active\"\x7d,\x7b\"name\":\"Bob Smith\",\"email\":\"bob@example.com\",\"status\":\"Active\"\x7d,\x7b\"name\":\"Carol White\",\"email\":\"carol@example.com\",\"status\":\"Inactive\"\x7d,\x7b\"name\":\"David Brown\",\"email\":\"david@example.com\",\"status\":\"Active\"\x7d],\"striped\":true\x7d\x7d,\"table-card\":\x7b\"key\":\"table-card\",\"type\":\"Card\",\"props\":\x7b\"title\":\"Users Data\"\x7d,\"children\":[\"data-table\"]\x7d\x7d\x7d" :=
  ⟨fun _ _ => rfl, rfl⟩

theorem validateParsed_sound (o : Option Json) (tc : Json)
    (h : validateParsed o = some tc) : validName tc := by
  unfold validateParsed at h
  split at h
  case _ fields =>
    split at h
    case _ tcFields heq =>
      split at h
      case _ n hn =>
        split at h
        case isTrue hmem =>
          cases h
          simpa [validName, hn] using hmem
        case isFalse => exact absurd h (by simp)
      case _ => exact absurd h (by simp)
    case _ => exact absurd h (by simp)
  case _ => exact absurd h (by simp)

/-- C4: for every input string, `parse_tool_call` either returns a dict whose
`name` is a declared catalog tool or returns null; it is total (the embedded
function is defined on all strings — the Python body catches `json.loads`,
its only throwing step), `"hello world"` yields null, and the marker followed
by truncated JSON yields null. -/
theorem extractor_valid_or_null :
    (∀ text : List Char,
      match parse_tool_call text with
      | some tc => validName tc
      | none => True) ∧
    parse_tool_call "hello world".toList = none ∧
    parse_tool_call "\x7b\"tool_call\":\x7b\"name\":\"show_chart\"".toList = none := by
  refine ⟨fun text => ?_, rfl, rfl⟩
  cases h : parse_tool_call text with
  | none => exact trivial
  | some tc => exact validateParsed_sound _ tc h

/-- C3 (amended): if, after trimming and fence stripping, neither
call-opening marker occurs in the cleaned text, and the cleaned text does not
itself parse wholesale into a JSON object carrying a valid `tool_call`, then
`parse_tool_call` returns null.  (The unamended claim fails: with no marker
present the code skips only the truncation, not the JSON parse of the whole
cleaned text — see this claim's counterexample theorem below.) -/
theorem extractor_no_marker_null (text : List Char)
    (h1 : pyFindSub (cleanedText text) callMarker1 = none)
    (h2 : pyFindSub (cleanedText text) callMarker2 = none)
    (h3 : validateParsed (pyLoads (cleanedText text)) = none) :
    parse_tool_call text = none := by
  unfold parse_tool_call markerStage
  rw [h1, h2]
  exact h3

theorem extractor_no_marker_null_witness :
    parse_tool_call "hello world".toList = none :=
  extractor_no_marker_null "hello world".toList rfl rfl rfl

/-- C3 counterexample: in `spacedCall` (two spaces after the opening brace)
neither marker occurs after cleaning, yet `parse_tool_call` returns a call
rather than null. -/
theorem extractor_no_marker_counterexample :
    pyFindSub (cleanedText spacedCall) callMarker1 = none ∧
    pyFindSub (cleanedText spacedCall) callMarker2 = none ∧
    (parse_tool_call spacedCall).isSome = true :=
  ⟨rfl, rfl, rfl⟩

theorem pyStrip_prefix_call (p : List Char) :
    pyStrip (p ++ showChartCall) = p.dropWhile isPySpace ++ showChartCall := by
  unfold pyStrip
  have h1 : (p ++ showChartCall).dropWhile isPySpace
      = p.dropWhile isPySpace ++ showChartCall := by
    rw [List.dropWhile_append]
    by_cases h : (p.dropWhile isPySpace).isEmpty
    · rw [if_pos h, List.isEmpty_iff.mp h]
      rfl
    · rw [if_neg h]
  rw [h1, List.reverse_append, List.dropWhile_append]
  have h3 : showChartCall.reverse.dropWhile isPySpace = showChartCall.reverse := by decide
  have h2 : (showChartCall.reverse.dropWhile isPySpace).isEmpty = false := by decide
  rw [if_neg (by simp [h2])]
  rw [h3]
  simp [List.reverse_append]

theorem find_marker_after_prose (p : List Char) (h : ∀ c ∈ p, ¬ c = '{') :
    pyFindSub (p ++ showChartCall) callMarker1 = some p.length := by
  induction p with
  | nil =>
    show pyFindSub showChartCall callMarker1 = some 0
    decide
  | cons c p ih =>
    have hc : ¬ c = '{' := h c (by simp)
    have hm : callMarker1 = '{' :: "\"tool_call\"".toList := rfl
    have hsw : startsWithL (c :: (p ++ showChartCall)) callMarker1 = false := by
      rw [hm]
      simp [startsWithL, hc]
    rw [List.cons_append]
    show (if startsWithL (c :: (p ++ showChartCall)) callMarker1 then some 0
      else match pyFindSub (p ++ showChartCall) callMarker1 with
        | some i => some (i + 1)
        | none => none) = some (c :: p).length
    rw [hsw]
    simp only [Bool.false_eq_true, if_false]
    rw [ih (fun c hcp => h c (by simp [hcp]))]
    simp

theorem fence_not_started (p : List Char) (h : ∀ c ∈ p, ¬ c = '`') :
    startsWithL (p ++ showChartCall) "```".toList = false := by
  cases p with
  | nil => decide
  | cons c rest =>
    have hc : ¬ c = '`' := h c (by simp)
    have hm : "```".toList = '`' :: "``".toList := rfl
    rw [List.cons_append, hm]
    simp [startsWithL, hc]

theorem extract_with_prose (p : List Char) (hb : ∀ c ∈ p, ¬ c = '{')
    (ht : ∀ c ∈ p, ¬ c = '`') :
    parse_tool_call (p ++ showChartCall) = some showChartInner := by
  have hb' : ∀ c ∈ p.dropWhile isPySpace, ¬ c = '{' :=
    fun c hc => hb c ((List.dropWhile_sublist _).subset hc)
  have ht' : ∀ c ∈ p.dropWhile isPySpace, ¬ c = '`' :=
    fun c hc => ht c ((List.dropWhile_sublist _).subset hc)
  unfold parse_tool_call cleanedText
  rw [pyStrip_prefix_call]
  rw [fence_not_started _ ht']
  simp only [Bool.false_eq_true, if_false]
  unfold markerStage
  rw [find_marker_after_prose _ hb']
  simp only [List.drop_left]
  rfl

/-- C5: the Tool-Call Extractor is a pure function — equal inputs give equal
results — and the reference call JSON yields exactly its inner object: bare,
wrapped in a fenced code block, and preceded by arbitrary leading prose
(any prefix free of braces and backticks, so that it can neither contain a
call-opening marker nor open a fence or disturb the brace scan). -/
theorem extractor_pure_extracts :
    (∀ text : List Char, parse_tool_call text = parse_tool_call text) ∧
    parse_tool_call showChartCall = some showChartInner ∧
    parse_tool_call ("```json\n".toList ++ showChartCall ++ "\n```".toList) =
      some showChartInner ∧
    (∀ p : List Char, (∀ c ∈ p, ¬ c = '{') → (∀ c ∈ p, ¬ c = '`') →
      parse_tool_call (p ++ showChartCall) = some showChartInner) :=
  ⟨fun _ => rfl, rfl, rfl, extract_with_prose⟩

theorem extractor_pure_extracts_witness :
    parse_tool_call ("Sure, here it is: ".toList ++ showChartCall) = some showChartInner :=
  extractor_pure_extracts.2.2.2 "Sure, here it is: ".toList (by decide) (by decide)

theorem startsWithL_nil (u : List Char) : startsWithL u [] = true := by
  cases u <;> rfl

theorem startsWithL_append (l t pat : List Char) (h : startsWithL l pat = true) :
    startsWithL (l ++ t) pat = true := by
  induction pat generalizing l with
  | nil => exact startsWithL_nil _
  | cons b bs ih =>
    cases l with
    | nil => simp [startsWithL] at h
    | cons a as =>
      simp only [startsWithL, Bool.and_eq_true, decide_eq_true_eq] at h
      simp only [List.cons_append, startsWithL, Bool.and_eq_true, decide_eq_true_eq]
      exact ⟨h.1, ih as h.2⟩

theorem containsSub_append (l t pat : List Char) (h : containsSub l pat = true) :
    containsSub (l ++ t) pat = true := by
  induction l with
  | nil =>
    have hp : pat = [] := by simpa [containsSub, List.isEmpty_iff] using h
    subst hp
    cases t with
    | nil => rfl
    | cons c cs => simp [containsSub, startsWithL]
  | cons c cs ih =>
    simp only [containsSub, Bool.or_eq_true, List.cons_append] at h ⊢
    cases h with
    | inl hs => exact Or.inl (startsWithL_append _ _ _ hs)
    | inr hc => exact Or.inr (ih hc)

theorem processFrags_append (st : PState) (a b : List (List Char)) :
    processFrags st (a ++ b) =
      ((processFrags (processFrags st a).1 b).1,
       (processFrags st a).2 ++ (processFrags (processFrags st a).1 b).2) := by
  induction a generalizing st with
  | nil => simp [processFrags]
  | cons x a ih =>
    simp only [List.cons_append, processFrags, List.append_eq]
    rw [ih]
    simp [List.append_assoc]

theorem processFrags_undecided (cs : List Char) :
    ∀ buf : List Char,
      containsSub (buf ++ cs) bufferMarker = false →
      (buf ++ cs).length ≤ 29 →
      processFrags ⟨buf, none, false⟩ (cs.map fun c => [c]) =
        (⟨buf ++ cs, none, false⟩, []) := by
  induction cs with
  | nil =>
    intro buf hm hl
    simp [processFrags]
  | cons c cs ih =>
    intro buf hm hl
    have hm1 : containsSub (buf ++ [c]) bufferMarker = false := by
      by_contra hcon
      have h1 : containsSub ((buf ++ [c]) ++ cs) bufferMarker = true :=
        containsSub_append _ _ _ ((Bool.not_eq_false _).mp hcon)
      rw [List.append_assoc, List.singleton_append, hm] at h1
      exact Bool.false_ne_true h1
    have hlen : buf.length + (cs.length + 1) ≤ 29 := by
      simpa [List.length_append] using hl
    have h30 : ¬ 30 ≤ buf.length + 1 := by omega
    have hstep : stepFrag ⟨buf, none, false⟩ [c] = (⟨buf ++ [c], none, false⟩, []) := by
      simp [stepFrag, hm1, List.length_append, h30]
    have ihx := ih (buf ++ [c])
      (by rw [List.append_assoc, List.singleton_append]; exact hm)
      (by rw [List.append_assoc, List.singleton_append]; exact hl)
    simp only [List.map_cons, processFrags, hstep, ihx]
    simp [List.append_assoc]

theorem processFrags_streaming (cs : List Char) :
    processFrags ⟨[], some false, true⟩ (cs.map fun c => [c]) =
      (⟨[], some false, true⟩, cs.map fun c => Event.textDelta textId [c].asString) := by
  induction cs with
  | nil => simp [processFrags]
  | cons c cs ih => simp [processFrags, stepFrag, ih]

/-- C2: feeding the Prompt-Tooling Driver one-character fragments whose
accumulating buffer never contains the `"tool_call"` probe: the first 29
fragments emit no events at all (in particular zero `TextDelta`s); the 30th
triggers exactly one `TextStart` followed by exactly one `TextDelta` carrying
all 30 characters concatenated in arrival order; and every later fragment is
immediately emitted as its own `TextDelta`. -/
theorem buffering_threshold (cs : List Char) (hlen : 30 ≤ cs.length)
    (hm : containsSub (cs.take 30) bufferMarker = false) :
    (processFrags pInit ((cs.take 29).map fun c => [c])).2 = [] ∧
    (processFrags pInit (cs.map fun c => [c])).2 =
      Event.textStart textId :: Event.textDelta textId (cs.take 30).asString ::
        (cs.drop 30).map (fun c => Event.textDelta textId [c].asString) := by
  obtain ⟨c30, rest, hdrop⟩ : ∃ c30 rest, cs.drop 29 = c30 :: rest := by
    cases h : cs.drop 29 with
    | nil =>
      exfalso
      have := congrArg List.length h
      simp [List.length_drop] at this
      omega
    | cons c r => exact ⟨c, r, rfl⟩
  have htake30 : cs.take 30 = cs.take 29 ++ [c30] := by
    rw [show (30 : Nat) = 29 + 1 from rfl, List.take_add, hdrop]
    rfl
  have h29 : containsSub (cs.take 29) bufferMarker = false := by
    by_contra hcon
    have h1 : containsSub (cs.take 29 ++ [c30]) bufferMarker = true :=
      containsSub_append _ _ _ ((Bool.not_eq_false _).mp hcon)
    rw [← htake30, hm] at h1
    exact Bool.false_ne_true h1
  have hm30 : containsSub (cs.take 29 ++ [c30]) bufferMarker = false := htake30 ▸ hm
  have hlen30 : (cs.take 29 ++ [c30]).length = 30 := by
    have : (cs.take 30).length = 30 := by
      simp [List.length_take]
      omega
    rw [← htake30]
    exact this
  have hpart1 := processFrags_undecided (cs.take 29) []
    (by simpa using h29)
    (by simp [List.length_take])
  rw [List.nil_append] at hpart1
  have hstep30 : stepFrag ⟨cs.take 29, none, false⟩ [c30] =
      (⟨[], some false, true⟩,
       [Event.textStart textId, Event.textDelta textId (cs.take 29 ++ [c30]).asString]) := by
    simp [stepFrag, hm30, hlen30]
  refine ⟨by rw [show pInit = (⟨[], none, false⟩ : PState) from rfl, hpart1], ?_⟩
  have hsplit : cs = cs.take 29 ++ c30 :: rest := by
    conv_lhs => rw [← List.take_append_drop 29 cs]
    rw [hdrop]
  have hdrop30 : cs.drop 30 = rest := by
    have hdd : (cs.drop 29).drop 1 = cs.drop 30 := List.drop_drop 1 29 cs
    rw [← hdd, hdrop]
    rfl
  conv_lhs => rw [hsplit]
  rw [List.map_append, processFrags_append]
  rw [show pInit = (⟨[], none, false⟩ : PState) from rfl, hpart1]
  simp only [List.map_cons, processFrags, hstep30, processFrags_streaming rest]
  simp [htake30, hdrop30]

theorem buffering_threshold_witness :
    (processFrags pInit (((List.replicate 31 'a').take 29).map fun c => [c])).2 = [] ∧
    (processFrags pInit ((List.replicate 31 'a').map fun c => [c])).2 =
      Event.textStart textId ::
        Event.textDelta textId ((List.replicate 31 'a').take 30).asString ::
        ((List.replicate 31 'a').drop 30).map
          (fun c => Event.textDelta textId [c].asString) :=
  buffering_threshold (List.replicate 31 'a') (by decide) (by decide)

mutual

theorem Json.beq_refl : ∀ j : Json, Json.beq j j = true
  | .null => rfl
  | .bool b => by simp [Json.beq]
  | .intNum n => by simp [Json.beq]
  | .floatNum m e => by simp [Json.beq]
  | .nanVal => rfl
  | .infVal b => by simp [Json.beq]
  | .str s => by simp [Json.beq]
  | .arr xs => by simp [Json.beq, Json.beqList_refl xs]
  | .obj fs => by simp [Json.beq, Json.beqFields_refl fs]

theorem Json.beqList_refl : ∀ xs : List Json, Json.beqList xs xs = true
  | [] => rfl
  | x :: xs => by simp [Json.beqList, Json.beq_refl x, Json.beqList_refl xs]

theorem Json.beqFields_refl : ∀ fs : List (String × Json), Json.beqFields fs fs = true
  | [] => rfl
  | (k, v) :: fs => by simp [Json.beqFields, Json.beq_refl v, Json.beqFields_refl fs]

end

theorem stepFrag_no_tool_events (st : PState) (c : List Char) :
    noToolEvents (stepFrag st c).2 = true := by
  simp only [stepFrag]
  split
  · rfl
  · split
    · split
      · rfl
      · split
        · rfl
        · rfl
    · rfl
    · rfl

theorem loop_no_tool_events (frags : List (List Char)) :
    ∀ st : PState, noToolEvents (processFrags st frags).2 = true := by
  induction frags with
  | nil => intro st; rfl
  | cons c frags ih =>
    intro st
    simp only [processFrags]
    rw [show noToolEvents ((stepFrag st c).2 ++ (processFrags (stepFrag st c).1 frags).2)
        = (noToolEvents (stepFrag st c).2 &&
           noToolEvents (processFrags (stepFrag st c).1 frags).2)
      from by simp [noToolEvents, List.all_append]]
    rw [stepFrag_no_tool_events, ih]
    rfl

theorem shape_after_non_tool (evs : List Event) (tail : List Event)
    (h : noToolEvents evs = true) :
    singleToolBlockShape (evs ++ tail) = singleToolBlockShape tail := by
  induction evs with
  | nil => rfl
  | cons e evs ih =>
    simp only [noToolEvents, List.all_cons, Bool.and_eq_true] at h
    have hrest : noToolEvents evs = true := by
      simp only [noToolEvents]
      exact h.2
    cases e <;> simp_all [singleToolBlockShape, isToolEvent]

theorem toolBlock_shape (callId : String) (buffer : List Char) (ts : Bool) :
    singleToolBlockShape (toolBlock callId buffer ts ++ [Event.done]) = true := by
  unfold toolBlock
  cases hp : parse_tool_call buffer with
  | none => cases ts <;> rfl
  | some tc =>
    cases hex : executeTool (tcNameOf tc) (tcInputOf tc) with
    | some r =>
      cases ts <;>
        simp [singleToolBlockShape, isToolEvent, noToolEvents, hex, Json.beq_refl]
    | none =>
      simp [singleToolBlockShape, isToolEvent, noToolEvents, hex]

theorem endPhase_shape (callId : String) (st : PState) :
    singleToolBlockShape (endPhase callId st ++ [Event.done]) = true := by
  obtain ⟨buf, itc, ts⟩ := st
  cases itc with
  | none =>
    by_cases hstrip : (pyStrip buf).isEmpty
    · cases ts <;> simp [endPhase, hstrip, singleToolBlockShape, isToolEvent]
    · cases hp : parse_tool_call buf with
      | some tc =>
        have : endPhase callId ⟨buf, none, ts⟩ = toolBlock callId buf ts := by
          simp [endPhase, hstrip, hp, toolBlock]
        rw [this]
        exact toolBlock_shape callId buf ts
      | none =>
        simp [endPhase, hstrip, hp, singleToolBlockShape, isToolEvent]
  | some b =>
    cases b with
    | true =>
      have : endPhase callId ⟨buf, some true, ts⟩ = toolBlock callId buf ts := rfl
      rw [this]
      exact toolBlock_shape callId buf ts
    | false =>
      cases ts <;> simp [endPhase, singleToolBlockShape, isToolEvent]

/-- C6: in every Prompt-Tooling Driver run, at most one tool call is executed
and tool events occur only as the single contiguous block `ToolInputStart`,
exactly one `ToolInputDelta` carrying the re-serialized input JSON,
`ToolInputAvailable`, and then — after `execute_tool` returns — exactly one
`ToolOutputAvailable` carrying its result (when `execute_tool` raises, the
in-band `error` event takes the output's place); no second provider round
trip exists on this path (the driver consumes its single provider stream by
construction). -/
theorem proxy_tool_block_shape (msgId callId : String) (frags : List (List Char))
    (provErr : Option String) :
    singleToolBlockShape (chat_via_proxy msgId callId frags provErr) = true := by
  unfold chat_via_proxy
  have hstart : ∀ X : List Event,
      singleToolBlockShape (Event.start msgId :: X) = singleToolBlockShape X := by
    intro X
    simp [singleToolBlockShape, isToolEvent]
  cases provErr with
  | some m =>
    rw [hstart]
    rw [shape_after_non_tool _ _ (loop_no_tool_events frags pInit)]
    rfl
  | none =>
    rw [hstart]
    show singleToolBlockShape
      ((processFrags pInit frags).2 ++ endPhase callId (processFrags pInit frags).1
        ++ [Event.done]) = true
    rw [List.append_assoc]
    rw [shape_after_non_tool _ _ (loop_no_tool_events frags pInit)]
    exact endPhase_shape callId _

theorem framedAux_cons (opens : List String) (e : Event) (rest : List Event)
    (o1 : List String) (hterm : isTermEvent e = false)
    (hstep : stepOpens opens e = some o1) :
    framedAux opens (e :: rest) = framedAux o1 rest := by
  cases e <;> simp_all [framedAux, stepOpens, isTermEvent]

theorem framedAux_append (evs : List Event) :
    ∀ (opens o' : List String) (tail : List Event),
      noTerm evs = true → runOpens opens evs = some o' →
      framedAux opens (evs ++ tail) = framedAux o' tail := by
  induction evs with
  | nil =>
    intro opens o' tail _ hrun
    cases hrun
    rfl
  | cons e evs ih =>
    intro opens o' tail hnt hrun
    simp only [noTerm, List.all_cons, Bool.and_eq_true] at hnt
    have hterm : isTermEvent e = false := by
      cases hh : isTermEvent e
      · rfl
      · rw [hh] at hnt; simp at hnt
    simp only [runOpens] at hrun
    cases hstep : stepOpens opens e with
    | none => rw [hstep] at hrun; exact absurd hrun (by simp)
    | some o1 =>
      rw [hstep] at hrun
      rw [List.cons_append, framedAux_cons opens e _ o1 hterm hstep]
      exact ih o1 o' tail hnt.2 hrun

theorem stepFrag_framing (st : PState) (c : List Char) (hwf : pWf st) :
    pWf (stepFrag st c).1 ∧ noTerm (stepFrag st c).2 = true ∧
      runOpens (stOpens st) (stepFrag st c).2 = some (stOpens (stepFrag st c).1) := by
  obtain ⟨buf, itc, ts⟩ := st
  simp only [stepFrag]
  by_cases hc : c.isEmpty
  · simp only [hc, if_true]
    exact ⟨hwf, rfl, rfl⟩
  · simp only [hc, Bool.false_eq_true, if_false]
    cases itc with
    | none =>
      have hts : ts = false := hwf (by simp)
      subst hts
      by_cases hm : containsSub (buf ++ c) bufferMarker
      · simp [hm, pWf, noTerm, runOpens, stOpens]
      · by_cases hl : 30 ≤ buf.length + c.length
        · simp [hm, hl, pWf, noTerm, runOpens, stepOpens, stOpens, isTermEvent]
        · simp [hm, hl, pWf, noTerm, runOpens, stOpens]
    | some b =>
      cases b with
      | true =>
        have hts : ts = false := hwf (by simp)
        subst hts
        simp [pWf, noTerm, runOpens, stOpens]
      | false =>
        simp [pWf, noTerm, runOpens, stepOpens, stOpens, isTermEvent]

theorem processFrags_framing (frags : List (List Char)) :
    ∀ st : PState, pWf st →
      pWf (processFrags st frags).1 ∧
      noTerm (processFrags st frags).2 = true ∧
      runOpens (stOpens st) (processFrags st frags).2 =
        some (stOpens (processFrags st frags).1) := by
  induction frags with
  | nil =>
    intro st hwf
    exact ⟨hwf, rfl, rfl⟩
  | cons c frags ih =>
    intro st hwf
    obtain ⟨hwf1, hnt1, hrun1⟩ := stepFrag_framing st c hwf
    obtain ⟨hwf2, hnt2, hrun2⟩ := ih (stepFrag st c).1 hwf1
    refine ⟨hwf2, ?_, ?_⟩
    · simp only [processFrags]
      simp [noTerm, List.all_append]
      constructor
      · simpa [noTerm] using hnt1
      · simpa [noTerm] using hnt2
    · simp only [processFrags]
      have hra : ∀ (a b : List Event) (o o1 o2 : List String),
          runOpens o a = some o1 → runOpens o1 b = some o2 →
          runOpens o (a ++ b) = some o2 := by
        intro a
        induction a with
        | nil =>
          intro b o o1 o2 h1 h2
          cases h1
          exact h2
        | cons x xs iha =>
          intro b o o1 o2 h1 h2
          simp only [runOpens] at h1 ⊢
          cases hs : stepOpens o x with
          | none => rw [hs] at h1; exact absurd h1 (by simp)
          | some oo =>
            rw [hs] at h1
            exact iha b oo o1 o2 h1 h2
      exact hra _ _ _ _ _ hrun1 hrun2

theorem toolBlock_framing (callId : String) (buffer : List Char) :
    framedAux [] (toolBlock callId buffer false ++ [Event.done]) = true := by
  unfold toolBlock
  cases hp : parse_tool_call buffer with
  | none => simp [framedAux, stepOpens, isTermEvent, runOpens, List.erase_cons_head]
  | some tc =>
    cases hex : executeTool (tcNameOf tc) (tcInputOf tc) with
    | some r =>
      simp [framedAux, stepOpens, isTermEvent, List.erase_cons_head, hex]
    | none =>
      simp [framedAux, stepOpens, isTermEvent, hex]

theorem endPhase_framing (callId : String) (st : PState) (hwf : pWf st) :
    framedAux (stOpens st) (endPhase callId st ++ [Event.done]) = true := by
  obtain ⟨buf, itc, ts⟩ := st
  cases itc with
  | none =>
    have hts : ts = false := hwf (by simp)
    subst hts
    by_cases hstrip : (pyStrip buf).isEmpty
    · simp [endPhase, hstrip, framedAux, stOpens]
    · cases hp : parse_tool_call buf with
      | some tc =>
        have heq : endPhase callId ⟨buf, none, false⟩ = toolBlock callId buf false := by
          simp [endPhase, hstrip, hp, toolBlock]
        rw [heq]
        exact toolBlock_framing callId buf
      | none =>
        simp [endPhase, hstrip, hp, framedAux, stepOpens, isTermEvent, stOpens,
          List.erase_cons_head]
  | some b =>
    cases b with
    | true =>
      have hts : ts = false := hwf (by simp)
      subst hts
      have heq : endPhase callId ⟨buf, some true, false⟩ = toolBlock callId buf false := rfl
      rw [heq]
      exact toolBlock_framing callId buf
    | false =>
      cases ts with
      | true =>
        simp [endPhase, framedAux, stOpens, stepOpens, isTermEvent, List.erase_cons_head]
      | false =>
        simp [endPhase, framedAux, stOpens]

theorem proxy_framing (msgId callId : String) (frags : List (List Char))
    (provErr : Option String) :
    framedCheck (chat_via_proxy msgId callId frags provErr) = true := by
  unfold framedCheck chat_via_proxy
  have hwf0 : pWf pInit := by intro h; rfl
  obtain ⟨hwf, hnt, hrun⟩ := processFrags_framing frags pInit hwf0
  have hstart : ∀ X : List Event, framedAux [] (Event.start msgId :: X) = framedAux [] X := by
    intro X
    exact framedAux_cons [] (Event.start msgId) X [] rfl rfl
  cases provErr with
  | some m =>
    rw [hstart]
    rw [show stOpens pInit = [] from rfl] at hrun
    rw [framedAux_append _ _ _ _ hnt hrun]
    rfl
  | none =>
    rw [hstart]
    show framedAux []
      ((processFrags pInit frags).2 ++ endPhase callId (processFrags pInit frags).1
        ++ [Event.done]) = true
    rw [List.append_assoc]
    rw [show stOpens pInit = [] from rfl] at hrun
    rw [framedAux_append _ _ _ _ hnt hrun]
    exact endPhase_framing callId _ hwf

theorem erase_append_singleton_perm (l : List String) (a : String) :
    List.Perm ((l ++ [a]).erase a) l := by
  induction l with
  | nil => simp [List.erase_cons_head]
  | cons x l ih =>
    by_cases h : x = a
    · subst h
      rw [List.cons_append, List.erase_cons_head]
      exact List.perm_append_singleton _ _
    · rw [List.cons_append, List.erase_cons_tail (by simp [h])]
      exact ih.cons x

theorem processTurn_framing (evts : List AEvent) :
    ∀ (ts : Bool) (ct : Option PendTool) (opens : List String),
      List.Perm opens (tsOpens ts ++ ctOpens ct) →
      turnBalancedAux ct.isSome evts = true →
      noTerm (processTurn ts ct evts).events = true ∧
      noToa (processTurn ts ct evts).events = true ∧
      (processTurn ts ct evts).pending = none ∧
      ∃ o', runOpens opens (processTurn ts ct evts).events = some o' ∧
        List.Perm o' (tsOpens (processTurn ts ct evts).textStarted) := by
  induction evts with
  | nil =>
    intro ts ct opens hperm hbal
    simp only [turnBalancedAux, Bool.not_eq_true'] at hbal
    have hct : ct = none := by
      cases ct
      · rfl
      · simp at hbal
    subst hct
    refine ⟨rfl, rfl, rfl, opens, rfl, ?_⟩
    simpa [ctOpens] using hperm
  | cons e rest ih =>
    intro ts ct opens hperm hbal
    cases e with
    | blockStartToolUse i n =>
      simp only [turnBalancedAux, Bool.and_eq_true, Bool.not_eq_true'] at hbal
      have hct : ct = none := by
        cases ct
        · rfl
        · simp at hbal
      subst hct
      have hperm2 : List.Perm (i :: opens) (tsOpens ts ++ ctOpens (some ⟨i, n, []⟩)) := by
        have h1 : List.Perm opens (tsOpens ts) := by simpa [ctOpens] using hperm
        have h2 : List.Perm (i :: opens) (i :: tsOpens ts) := h1.cons i
        have h3 : List.Perm (i :: tsOpens ts) (tsOpens ts ++ [i]) :=
          (List.perm_append_singleton i (tsOpens ts)).symm
        exact h2.trans h3
      obtain ⟨hnt, hntoa, hpend, o', hrun, hperm'⟩ :=
        ih ts (some ⟨i, n, []⟩) (i :: opens) hperm2 (by simpa using hbal.2)
      simp only [processTurn, stepAEvent]
      refine ⟨?_, ?_, hpend, o', ?_, hperm'⟩
      · simpa [noTerm, isTermEvent] using hnt
      · simpa [noToa, isToa] using hntoa
      · simpa [runOpens, stepOpens] using hrun
    | blockStartText =>
      obtain ⟨hnt, hntoa, hpend, o', hrun, hperm'⟩ := ih ts ct opens hperm (by simpa [turnBalancedAux] using hbal)
      simp only [processTurn, stepAEvent]
      exact ⟨hnt, hntoa, hpend, o', hrun, hperm'⟩
    | blockDeltaText s =>
      cases hts : ts with
      | true =>
        obtain ⟨hnt, hntoa, hpend, o', hrun, hperm'⟩ :=
          ih true ct opens (by simpa [hts] using hperm) (by simpa [turnBalancedAux] using hbal)
        simp only [processTurn, stepAEvent]
        refine ⟨?_, ?_, hpend, o', ?_, hperm'⟩
        · simpa [noTerm, isTermEvent] using hnt
        · simpa [noToa, isToa] using hntoa
        · simpa [runOpens, stepOpens] using hrun
      | false =>
        have hperm2 : List.Perm (textId :: opens) (tsOpens true ++ ctOpens ct) := by
          have h1 : List.Perm opens (ctOpens ct) := by simpa [hts, tsOpens] using hperm
          exact h1.cons textId
        obtain ⟨hnt, hntoa, hpend, o', hrun, hperm'⟩ :=
          ih true ct (textId :: opens) hperm2 (by simpa [turnBalancedAux] using hbal)
        simp only [processTurn, stepAEvent]
        refine ⟨?_, ?_, hpend, o', ?_, hperm'⟩
        · simpa [noTerm, isTermEvent] using hnt
        · simpa [noToa, isToa] using hntoa
        · simpa [runOpens, stepOpens] using hrun
    | blockDeltaInputJson pj =>
      cases hct : ct with
      | none =>
        subst hct
        obtain ⟨hnt, hntoa, hpend, o', hrun, hperm'⟩ :=
          ih ts none opens (by simpa using hperm) (by simpa [turnBalancedAux] using hbal)
        simp only [processTurn, stepAEvent]
        exact ⟨hnt, hntoa, hpend, o', hrun, hperm'⟩
      | some p =>
        subst hct
        have hperm2 : List.Perm opens
            (tsOpens ts ++ ctOpens (some ⟨p.id, p.name, p.inputStr ++ pj⟩)) := by
          simpa [ctOpens] using hperm
        obtain ⟨hnt, hntoa, hpend, o', hrun, hperm'⟩ :=
          ih ts (some ⟨p.id, p.name, p.inputStr ++ pj⟩) opens hperm2
            (by simpa [turnBalancedAux] using hbal)
        simp only [processTurn, stepAEvent]
        refine ⟨?_, ?_, hpend, o', ?_, hperm'⟩
        · simpa [noTerm, isTermEvent] using hnt
        · simpa [noToa, isToa] using hntoa
        · simpa [runOpens, stepOpens] using hrun
    | blockStop =>
      cases hct : ct with
      | none =>
        subst hct
        obtain ⟨hnt, hntoa, hpend, o', hrun, hperm'⟩ :=
          ih ts none opens (by simpa using hperm) (by simpa [turnBalancedAux] using hbal)
        simp only [processTurn, stepAEvent]
        exact ⟨hnt, hntoa, hpend, o', hrun, hperm'⟩
      | some p =>
        subst hct
        have hmem : p.id ∈ opens := by
          apply hperm.symm.mem_iff.mp
          simp [ctOpens]
        have hperm2 : List.Perm (opens.erase p.id) (tsOpens ts ++ ctOpens none) := by
          have h1 : List.Perm (opens.erase p.id) ((tsOpens ts ++ [p.id]).erase p.id) := by
            have := hperm.erase p.id
            simpa [ctOpens] using this
          have h2 := erase_append_singleton_perm (tsOpens ts) p.id
          simpa [ctOpens] using h1.trans h2
        obtain ⟨hnt, hntoa, hpend, o', hrun, hperm'⟩ :=
          ih ts none (opens.erase p.id) hperm2 (by simpa [turnBalancedAux] using hbal)
        simp only [processTurn, stepAEvent]
        refine ⟨?_, ?_, hpend, o', ?_, hperm'⟩
        · simpa [noTerm, isTermEvent] using hnt
        · simpa [noToa, isToa] using hntoa
        · simp only [runOpens, stepOpens]
          rw [if_pos hmem]
          exact hrun

theorem runOpens_append (a b : List Event) (o o1 o2 : List String)
    (h1 : runOpens o a = some o1) (h2 : runOpens o1 b = some o2) :
    runOpens o (a ++ b) = some o2 := by
  induction a generalizing o with
  | nil =>
    cases h1
    exact h2
  | cons x xs iha =>
    simp only [runOpens] at h1 ⊢
    cases hs : stepOpens o x with
    | none => rw [hs] at h1; exact absurd h1 (by simp)
    | some oo =>
      rw [hs] at h1
      exact iha oo h1

theorem noTerm_append (a b : List Event) (ha : noTerm a = true) (hb : noTerm b = true) :
    noTerm (a ++ b) = true := by
  simp only [noTerm, List.all_append, Bool.and_eq_true]
  exact ⟨ha, hb⟩

theorem turn_framing (t : Turn) (hbal : turnBalanced t.events = true) :
    noTerm (turnEvents t) = true ∧
    noToa (processTurn false none t.events).events = true ∧
    runOpens [] (turnEvents t) = some [] := by
  obtain ⟨hnt, hntoa, hpend, o', hrun, hperm⟩ :=
    processTurn_framing t.events false none [] (by simp [tsOpens, ctOpens]) hbal
  unfold turnEvents
  cases hts : (processTurn false none t.events).textStarted with
  | false =>
    have ho : o' = [] := by
      rw [hts] at hperm
      exact hperm.eq_nil
    subst ho
    refine ⟨?_, hntoa, ?_⟩
    · simpa [noTerm] using hnt
    · simpa using hrun
  | true =>
    rw [hts] at hperm
    simp only [tsOpens, if_true] at hperm
    have hmem : textId ∈ o' := hperm.symm.mem_iff.mp (by simp)
    have herase : o'.erase textId = [] := by
      have h1 : List.Perm (o'.erase textId) ([textId].erase textId) := hperm.erase textId
      rw [List.erase_cons_head] at h1
      exact h1.eq_nil
    have hclose : runOpens o' [Event.textEnd textId] = some [] := by
      simp [runOpens, stepOpens, hmem, herase]
    refine ⟨?_, hntoa, ?_⟩
    · exact noTerm_append _ _ hnt (by simp [noTerm, isTermEvent])
    · exact runOpens_append _ _ _ _ _ hrun hclose

theorem execTools_framing (tus : List ToolUse) :
    noTerm (execTools tus).events = true ∧
    (∀ opens, runOpens opens (execTools tus).events = some opens) := by
  induction tus with
  | nil => exact ⟨rfl, fun _ => rfl⟩
  | cons tu tus ih =>
    simp only [execTools]
    cases hex : executeTool tu.name tu.input with
    | some r =>
      refine ⟨?_, ?_⟩
      · simpa [noTerm, isTermEvent] using ih.1
      · intro opens
        simpa [runOpens, stepOpens] using ih.2 opens
    | none => exact ⟨rfl, fun _ => rfl⟩

theorem anthropicLoop_framing (pts : List ProviderTurn) :
    ∀ conv, wellFormedPts pts = true →
      (∀ evs n, anthropicLoop conv pts = .ok evs n →
        noTerm evs = true ∧ runOpens [] evs = some []) ∧
      (∀ evs m n, anthropicLoop conv pts = .failed evs m n →
        noTerm evs = true ∧ ∃ o, runOpens [] evs = some o) := by
  induction pts with
  | nil =>
    intro conv _
    constructor
    · intro evs n heq
      exact absurd heq (by simp [anthropicLoop])
    · intro evs m n heq
      exact absurd heq (by simp [anthropicLoop])
  | cons pt pts ih =>
    intro conv hwf
    simp only [wellFormedPts, List.all_cons, Bool.and_eq_true] at hwf
    cases pt with
    | raise msg =>
      constructor
      · intro evs n heq
        exact absurd heq (by simp [anthropicLoop])
      · intro evs m n heq
        simp only [anthropicLoop, RunOut.failed.injEq] at heq
        obtain ⟨he, -, -⟩ := heq
        subst he
        exact ⟨rfl, [], rfl⟩
    | turn t =>
      obtain ⟨hnt1, hntoa1, hrun1⟩ := turn_framing t hwf.1
      obtain ⟨hnte, hrune⟩ := execTools_framing (processTurn false none t.events).toolUses
      have hwfrest : wellFormedPts pts = true := by
        simpa [wellFormedPts] using hwf.2
      have ihx := ih (conv ++ [("assistant", t.finalContent),
        ("user", Json.arr ((execTools (processTurn false none t.events).toolUses).results.getD []))]) hwfrest
      constructor
      · intro evs n heq
        simp only [anthropicLoop] at heq
        split at heq
        · obtain ⟨he, -⟩ := RunOut.ok.injEq .. |>.mp heq
          subst he
          exact ⟨hnt1, hrun1⟩
        · split at heq
          · exact absurd heq (by simp)
          · rename_i results hres
            split at heq
            · rename_i evs2 n2 hloop
              obtain ⟨he, -⟩ := RunOut.ok.injEq .. |>.mp heq
              subst he
              have ihy := (ih (conv ++ [("assistant", t.finalContent),
                ("user", Json.arr results)]) hwfrest).1 evs2 n2 hloop
              refine ⟨noTerm_append _ _ (noTerm_append _ _ hnt1 hnte) ihy.1, ?_⟩
              exact runOpens_append _ _ _ _ _
                (runOpens_append _ _ _ _ _ hrun1 (hrune [])) ihy.2
            · exact absurd heq (by simp)
            · exact absurd heq (by simp)
      · intro evs m n heq
        simp only [anthropicLoop] at heq
        split at heq
        · exact absurd heq (by simp)
        · split at heq
          · obtain ⟨he, -, -⟩ := RunOut.failed.injEq .. |>.mp heq
            subst he
            refine ⟨noTerm_append _ _ hnt1 hnte, [], ?_⟩
            exact runOpens_append _ _ _ _ _ hrun1 (hrune [])
          · rename_i results hres
            split at heq
            · exact absurd heq (by simp)
            · rename_i evs2 m2 n2 hloop
              obtain ⟨he, -, -⟩ := RunOut.failed.injEq .. |>.mp heq
              subst he
              obtain ⟨hnt2, o, hro⟩ := (ih (conv ++ [("assistant", t.finalContent),
                ("user", Json.arr results)]) hwfrest).2 evs2 m2 n2 hloop
              refine ⟨noTerm_append _ _ (noTerm_append _ _ hnt1 hnte) hnt2, o, ?_⟩
              exact runOpens_append _ _ _ _ _
                (runOpens_append _ _ _ _ _ hrun1 (hrune [])) hro
            · exact absurd heq (by simp)

theorem anthropic_framing (msgId : String) (conv : List (String × Json))
    (pts : List ProviderTurn) (hwf : wellFormedPts pts = true) :
    framedOfRun (chat_via_anthropic msgId conv pts) = true := by
  unfold framedOfRun chat_via_anthropic
  have hx := anthropicLoop_framing pts conv hwf
  cases h : anthropicLoop conv pts with
  | ok evs n =>
    obtain ⟨hnt, hro⟩ := hx.1 evs n h
    simp only [framedCheck]
    have hnt' : noTerm ([Event.start msgId] ++ evs) = true :=
      noTerm_append _ _ (by simp [noTerm, isTermEvent]) hnt
    have hro' : runOpens [] ([Event.start msgId] ++ evs) = some [] :=
      runOpens_append _ _ _ _ _ rfl hro
    rw [show Event.start msgId :: evs ++ [Event.finish, Event.done]
        = ([Event.start msgId] ++ evs) ++ [Event.finish, Event.done] from by simp]
    rw [framedAux_append _ _ _ _ hnt' hro']
    rfl
  | failed evs m n =>
    obtain ⟨hnt, o, hro⟩ := hx.2 evs m n h
    simp only [framedCheck]
    have hnt' : noTerm ([Event.start msgId] ++ evs) = true :=
      noTerm_append _ _ (by simp [noTerm, isTermEvent]) hnt
    have hro' : runOpens [] ([Event.start msgId] ++ evs) = some o :=
      runOpens_append _ _ _ _ _ rfl hro
    rw [show Event.start msgId :: evs ++ [Event.error m, Event.done]
        = ([Event.start msgId] ++ evs) ++ [Event.error m, Event.done] from by simp]
    rw [framedAux_append _ _ _ _ hnt' hro']
    rfl
  | outOfTurns => rfl

/-- C1 (amended): every stream id opened by `TextStart`/`ToolInputStart` is
closed exactly once (by `TextEnd`/`ToolInputAvailable`) before `Finish`,
except when superseded by an `Error`, and the `Finish` (or `Error`) event is
immediately followed by exactly one terminal `[DONE]` marker, which ends the
stream — for every Prompt-Tooling Driver provider sequence, and for every
Native-Tooling Driver provider sequence whose turns are content-block
balanced (each opened `tool_use` block is stopped before its turn ends and
not overwritten).  The unamended claim quantifies over *all* sequences and
fails: a simulated turn that starts a tool block and never stops it leaves
`tool-input-start` unclosed at `finish` — see this claim's counterexample
theorem below. -/
theorem stream_framing_invariant :
    (∀ (msgId callId : String) (frags : List (List Char)) (provErr : Option String),
      framedCheck (chat_via_proxy msgId callId frags provErr) = true) ∧
    (∀ (msgId : String) (conv : List (String × Json)) (pts : List ProviderTurn),
      wellFormedPts pts = true →
      framedOfRun (chat_via_anthropic msgId conv pts) = true) :=
  ⟨proxy_framing, anthropic_framing⟩

theorem stream_framing_invariant_witness :
    framedOfRun (chat_via_anthropic "m" []
      [.turn ⟨[.blockStartToolUse "tc1" "show_status",
               .blockDeltaInputJson "\x7b\x7d".toList, .blockStop], "tool_use", Json.null⟩,
       .turn ⟨[.blockDeltaText "done"], "end_turn", Json.null⟩]) = true :=
  stream_framing_invariant.2 "m" [] _ (by decide)

/-- C1 counterexample: an ill-formed simulated provider turn (a `tool_use`
content block opened but never stopped) makes the Native-Tooling Driver emit
`tool-input-start` with no matching close before `finish` and no `error`. -/
theorem stream_framing_counterexample :
    framedOfRun (chat_via_anthropic "m" []
      [.turn ⟨[.blockStartToolUse "t1" "show_chart"], "end_turn", Json.null⟩]) = false :=
  rfl

theorem stepAEvent_no_term_toa (ts : Bool) (ct : Option PendTool) (e : AEvent) :
    noTerm (stepAEvent ts ct e).events = true ∧ noToa (stepAEvent ts ct e).events = true := by
  cases e <;> simp only [stepAEvent] <;>
    first
      | exact ⟨rfl, rfl⟩
      | (split <;> exact ⟨rfl, rfl⟩)

theorem processTurn_no_term_toa (evts : List AEvent) :
    ∀ (ts : Bool) (ct : Option PendTool),
      noTerm (processTurn ts ct evts).events = true ∧
      noToa (processTurn ts ct evts).events = true := by
  induction evts with
  | nil => intro ts ct; exact ⟨rfl, rfl⟩
  | cons e rest ih =>
    intro ts ct
    obtain ⟨h1, h2⟩ := stepAEvent_no_term_toa ts ct e
    obtain ⟨h3, h4⟩ := ih (stepAEvent ts ct e).ts (stepAEvent ts ct e).ct
    simp only [processTurn]
    constructor
    · simp only [noTerm, List.all_append, Bool.and_eq_true]
      exact ⟨h1, h3⟩
    · simp only [noToa, List.all_append, Bool.and_eq_true]
      exact ⟨h2, h4⟩

theorem turnEvents_no_term_toa (t : Turn) :
    noTerm (turnEvents t) = true ∧ noToa (turnEvents t) = true := by
  obtain ⟨h1, h2⟩ := processTurn_no_term_toa t.events false none
  unfold turnEvents
  cases (processTurn false none t.events).textStarted
  · simpa using ⟨h1, h2⟩
  · constructor
    · exact noTerm_append _ _ h1 (by simp [noTerm, isTermEvent])
    · simp only [noToa, List.all_append, Bool.and_eq_true]
      exact ⟨h2, by simp [noToa, isToa]⟩

theorem toaBeforeFinish_skip (evs : List Event) (tail : List Event)
    (hnf : noTerm evs = true) (hnt : noToa evs = true) :
    toaBeforeFinish (evs ++ tail) = toaBeforeFinish tail := by
  induction evs with
  | nil => rfl
  | cons e evs ih =>
    simp only [noTerm, noToa, List.all_cons, Bool.and_eq_true] at hnf hnt
    have hrest := ih hnf.2 hnt.2
    cases e <;> simp_all [toaBeforeFinish, isTermEvent, isToa]

/-- C7: for a simulated provider whose first turn yields exactly one tool
call with stop reason `tool_use` ("needs tool results") and whose second turn
breaks the loop (no tool calls, or another stop reason), the Native-Tooling
Driver performs exactly two provider stream calls and emits exactly one
`ToolOutputAvailable` before `Finish`; in general the loop terminates after a
single call whenever a turn produces no tool calls or a stop reason other
than `tool_use`. -/
theorem native_loop_termination :
    (∀ (msgId : String) (conv : List (String × Json)) (t1 t2 : Turn)
       (rest : List ProviderTurn) (tu : ToolUse) (r : Json),
      (processTurn false none t1.events).toolUses = [tu] →
      t1.stopReason = "tool_use" →
      ((processTurn false none t2.events).toolUses = [] ∨ t2.stopReason ≠ "tool_use") →
      executeTool tu.name tu.input = some r →
      (chat_via_anthropic msgId conv (.turn t1 :: .turn t2 :: rest)).map Prod.snd =
        some 2 ∧
      (chat_via_anthropic msgId conv (.turn t1 :: .turn t2 :: rest)).map
        (fun p => toaBeforeFinish p.1) = some 1) ∧
    (∀ (msgId : String) (conv : List (String × Json)) (t : Turn)
       (rest : List ProviderTurn),
      ((processTurn false none t.events).toolUses = [] ∨ t.stopReason ≠ "tool_use") →
      (chat_via_anthropic msgId conv (.turn t :: rest)).map Prod.snd = some 1) := by
  have hbreak : ∀ (conv : List (String × Json)) (t : Turn) (rest : List ProviderTurn),
      ((processTurn false none t.events).toolUses = [] ∨ t.stopReason ≠ "tool_use") →
      anthropicLoop conv (.turn t :: rest) = .ok (turnEvents t) 1 := by
    intro conv t rest hb
    simp only [anthropicLoop]
    cases hb with
    | inl h => rw [if_pos (by simp [h])]
    | inr h => rw [if_pos (by simp [h])]
  constructor
  · intro msgId conv t1 t2 rest tu r h1 hstop hb2 hex
    have hexec : execTools (processTurn false none t1.events).toolUses =
        ⟨[Event.toolOutputAvailable tu.id r],
         some [Json.obj [("type", jstr "tool_result"), ("tool_use_id", jstr tu.id),
               ("content", jstr (dumpsPy r))]]⟩ := by
      rw [h1]
      simp [execTools, hex]
    have hloop : anthropicLoop conv (.turn t1 :: .turn t2 :: rest) =
        .ok (turnEvents t1 ++ [Event.toolOutputAvailable tu.id r] ++ turnEvents t2) 2 := by
      simp only [anthropicLoop]
      rw [if_neg (by simp [h1, hstop])]
      rw [hexec]
      simp only []
      have hcond2 : ((processTurn false none t2.events).toolUses.isEmpty
          || decide (t2.stopReason ≠ "tool_use")) = true := by
        cases hb2 with
        | inl h => simp [h]
        | inr h => simp [h]
      rw [if_pos hcond2]
    unfold chat_via_anthropic
    rw [hloop]
    constructor
    · rfl
    · obtain ⟨hf1, ht1⟩ := turnEvents_no_term_toa t1
      obtain ⟨hf2, ht2⟩ := turnEvents_no_term_toa t2
      have hre : Event.start msgId ::
          (turnEvents t1 ++ [Event.toolOutputAvailable tu.id r] ++ turnEvents t2)
            ++ [Event.finish, Event.done]
          = [Event.start msgId] ++ (turnEvents t1 ++ ([Event.toolOutputAvailable tu.id r]
            ++ (turnEvents t2 ++ [Event.finish, Event.done]))) := by
        simp [List.append_assoc]
      show some (toaBeforeFinish (Event.start msgId ::
        (turnEvents t1 ++ [Event.toolOutputAvailable tu.id r] ++ turnEvents t2)
          ++ [Event.finish, Event.done])) = some 1
      rw [hre]
      rw [toaBeforeFinish_skip [Event.start msgId] _ rfl rfl]
      rw [toaBeforeFinish_skip _ _ hf1 ht1]
      rw [show toaBeforeFinish ([Event.toolOutputAvailable tu.id r]
          ++ (turnEvents t2 ++ [Event.finish, Event.done]))
        = toaBeforeFinish (turnEvents t2 ++ [Event.finish, Event.done]) + 1 from rfl]
      rw [toaBeforeFinish_skip _ _ hf2 ht2]
      rfl
  · intro msgId conv t rest hb
    unfold chat_via_anthropic
    rw [hbreak conv t rest hb]
    rfl

theorem native_loop_termination_witness :
    (chat_via_anthropic "m" []
      [.turn ⟨[.blockStartToolUse "tc1" "show_status", .blockStop], "tool_use", Json.null⟩,
       .turn ⟨[.blockDeltaText "ok"], "end_turn", Json.null⟩]).map Prod.snd = some 2 ∧
    (chat_via_anthropic "m" []
      [.turn ⟨[.blockStartToolUse "tc1" "show_status", .blockStop], "tool_use", Json.null⟩,
       .turn ⟨[.blockDeltaText "ok"], "end_turn", Json.null⟩]).map
      (fun p => toaBeforeFinish p.1) = some 1 :=
  native_loop_termination.1 "m" []
    ⟨[.blockStartToolUse "tc1" "show_status", .blockStop], "tool_use", Json.null⟩
    ⟨[.blockDeltaText "ok"], "end_turn", Json.null⟩ []
    ⟨"tc1", "show_status", Json.obj []⟩ showStatus
    rfl rfl (Or.inr (by decide)) rfl

end AIChat
